import Mathlib

/-!
# libwebring-go: ring model, neighbour lookup, anomaly filter, document codec

A shallow embedding of `libwebring.go`.

* Go slices are lists; slice indexing is fallible (`none` stands for the
  run-time panic of an out-of-range index), so a function that indexes a
  slice returns an `Option`.
* Go `int` values are mathematical integers.  The only arithmetic the code
  performs on them is `i-1` under `i > 0`, `i+1` under `i < len(r)-1` and
  `len(r)-1` under `len(r) ≠ 0`; none of these can leave the 64-bit range.
* A Go map is an association list; a key is present when some pair carries it.
* A Go string is a string of characters.  The one pattern the code searches
  for, ".json", is ASCII, so in UTF-8 text its occurrences as bytes and as
  characters are the same.
* A call that may not return carries a bound on the depth of nested calls and
  answers `none` when the bound is reached.
-/

namespace Libwebring

set_option autoImplicit false
set_option linter.dupNamespace false

/-! ## Data model -/

/-- Link is a link in the webring: `type Link struct { Name, Link string }`. -/
structure Link where
  Name : String
  Link : String
deriving DecidableEq, Repr

/-- The zero value `Link{}`. -/
def Link.zero : Libwebring.Link := { Name := "", Link := "" }

/-- Ring is a ring of links: `type Ring []Link`. -/
abbrev Ring := List Link

/-- LinkStatus contains the status of a link. -/
structure LinkStatus where
  Dead : Bool
  MissingWebring : Bool
deriving DecidableEq, Repr

/-- The zero value `LinkStatus{}`. -/
def LinkStatus.zero : LinkStatus := { Dead := false, MissingWebring := false }

/-- Anomalies is `map[string]LinkStatus`, kept as an association list. -/
abbrev Anomalies := List (String × LinkStatus)

/-- The comma-ok lookup `_, ok := anomalies[key]`: whether `key` is present. -/
def Anomalies.has (anomalies : Anomalies) (key : String) : Bool :=
  (List.lookup key anomalies).isSome

/-! ## Ring algebra -/

/-- The slice index expression `r[j]` for a Go `int` index `j`: it panics
(`none`) when `j < 0` or `j ≥ len(r)`. -/
def Ring.index (r : Ring) (j : Int) : Option Link :=
  if j < 0 then none else r[j.toNat]?

/-- Filter filters the ring with the given filter function: the loop appends
each accepted link to `filtered`, which starts empty. -/
def Ring.Filter (r : Ring) (f : Link → Bool) : Ring :=
  r.foldl (fun filtered link => if f link then filtered ++ [link] else filtered) []

/-- ExcludeAnomalies excludes the anomalies from the ring. -/
def Ring.ExcludeAnomalies (r : Ring) (anomalies : Anomalies) : Ring :=
  r.Filter (fun link => !(anomalies.has link.Link))

/-- SurroundingIndex returns the links surrounding the given index; if the
index is out of bounds it returns empty links.  `none` is a panic. -/
def Ring.SurroundingIndex (r : Ring) (i : Int) : Option (Link × Link) :=
  if r.length = 0 ∨ i < 0 ∨ i ≥ (r.length : Int) then
    some (Link.zero, Link.zero)
  else
    match (if i > 0 then r.index (i - 1) else r.index ((r.length : Int) - 1)),
          (if i < (r.length : Int) - 1 then r.index (i + 1) else r.index 0) with
    | some prev, some next => some (prev, next)
    | _, _ => none

/-- The `for i, l := range r` loop of SurroundingLinks over the remaining
elements `rest`, the first of which has index `i` in `r`. -/
def Ring.SurroundingLinks.loop (r : Ring) (link : Link) : List Link → Int → Option (Link × Link)
  | [], _ => some (Link.zero, Link.zero)
  | l :: rest, i =>
    if l = link then r.SurroundingIndex i
    else Ring.SurroundingLinks.loop r link rest (i + 1)

/-- SurroundingLinks returns the links surrounding the given link; it returns
empty links if the link is not found. -/
def Ring.SurroundingLinks (r : Ring) (link : Link) : Option (Link × Link) :=
  Ring.SurroundingLinks.loop r link r 0

/-- The three-element ring of `TestRingSurroundingLinks/3`. -/
def testRing3 : Ring :=
  [⟨"a", "https://a"⟩, ⟨"b", "https://b"⟩, ⟨"c", "https://c"⟩]

/-! ## Status URL -/

/-- Go `strings.Replace(s, old, new, 1)` on the characters of the strings:
the leftmost instance of `old` in `s` is replaced by `new`; without an
instance `s` is returned. -/
def stringsReplaceFirst (old new : List Char) : List Char → List Char
  | [] => if old = [] then new else []
  | c :: cs =>
    if old.isPrefixOf (c :: cs) then new ++ (c :: cs).drop old.length
    else c :: stringsReplaceFirst old new cs

/-- GuessStatusURL returns the URL of the status file for the given webring
URL: `strings.Replace(webringURL, ".json", ".status.json", 1)`. -/
def GuessStatusURL (webringURL : String) : String :=
  String.mk (stringsReplaceFirst ".json".data ".status.json".data webringURL.data)

/-- The ring a, b, a, b: every link occurs twice. -/
def dupRing : Ring :=
  [⟨"a", "https://a"⟩, ⟨"b", "https://b"⟩, ⟨"a", "https://a"⟩, ⟨"b", "https://b"⟩]

/-! ## Documents -/

/-- Data contains the webring data. -/
structure Data where
  Version : Int
  Name : String
  Root : String
  Ring : Ring
deriving DecidableEq, Repr

/-- The zero value `Data{}`. -/
def Data.zero : Data := { Version := 0, Name := "", Root := "", Ring := [] }

/-- StatusData contains the status data of the webring. -/
structure StatusData where
  Version : Int
  Anomalies : Anomalies
deriving DecidableEq, Repr

/-- The zero value `StatusData{}`. -/
def StatusData.zero : StatusData := { Version := 0, Anomalies := [] }

/-- The map assignment `m[key] = value`: an existing entry is overwritten, a
new key is added. -/
def Anomalies.set (m : Anomalies) (key : String) (value : LinkStatus) : Anomalies :=
  if m.has key then m.map (fun kv => if kv.1 = key then (key, value) else kv)
  else m ++ [(key, value)]

/-! ## encoding/json

The part of Go's `encoding/json` that the codec of this library exercises,
on JSON values instead of bytes. -/

/-- A JSON value.  Number literals are split by how they decode into a Go
`int`: `int n` is a literal without fraction and exponent, `float lit` is any
other number literal. -/
inductive JSON where
  | null
  | bool (b : Bool)
  | int (n : Int)
  | float (lit : String)
  | str (s : String)
  | arr (elems : List JSON)
  | obj (members : List (String × JSON))
deriving Repr

/-- The name encoding/json gives the kind of a JSON value in its messages. -/
def JSON.kind : JSON → String
  | .null => "null"
  | .bool _ => "bool"
  | .int _ => "number"
  | .float _ => "number"
  | .str _ => "string"
  | .arr _ => "array"
  | .obj _ => "object"

/-- A Go `error` value: one reported by encoding/json, with its message, or one
made by `errors.New`. -/
inductive GoError where
  | json (msg : String)
  | errorString (s : String)
deriving DecidableEq, Repr

/-- The method `Error() string`. -/
def GoError.Error : GoError → String
  | .json msg => msg
  | .errorString s => s

/-- The `*json.UnmarshalTypeError` for a JSON value that does not fit the Go
type it is decoded into.  The text stands for the library's message, which
also quotes the offending literal and the struct field; nothing below depends
on it. -/
def unmarshalTypeError (j : JSON) (goType : String) : GoError :=
  .json ("json: cannot unmarshal " ++ j.kind ++ " into Go value of type " ++ goType)

/-- Go `decodeState.saveError`: the first error of a decode is kept, decoding
goes on. -/
def saveError (saved : Option GoError) (err : Option GoError) : Option GoError :=
  match saved with
  | some e => some e
  | none => err

/-- The struct field an object key selects: a field whose JSON name is the key
itself, else the first field whose folded name equals the folded key.  `fold`
is `json.foldName` (Unicode simple case folding), a table of the library. -/
def matchField (fold : String → String) (names : List String) (key : String) : Option String :=
  match names.find? (fun n => n = key) with
  | some n => some n
  | none => names.find? (fun n => fold n = fold key)

/-- Decoding into a Go `int` (64 bits): `null` leaves it, an integer literal in
range is stored, anything else is a type error that leaves it. -/
def decodeInt (old : Int) : JSON → Int × Option GoError
  | .null => (old, none)
  | .int n =>
    if -(2 : Int) ^ 63 ≤ n ∧ n < (2 : Int) ^ 63 then (n, none)
    else (old, some (unmarshalTypeError (.int n) "int"))
  | j => (old, some (unmarshalTypeError j "int"))

/-- Decoding into a Go `string`. -/
def decodeString (old : String) : JSON → String × Option GoError
  | .null => (old, none)
  | .str s => (s, none)
  | j => (old, some (unmarshalTypeError j "string"))

/-- Decoding into a Go `bool`. -/
def decodeBool (old : Bool) : JSON → Bool × Option GoError
  | .null => (old, none)
  | .bool b => (b, none)
  | j => (old, some (unmarshalTypeError j "bool"))

/-- One member of a JSON object decoded into a Link. -/
def decodeLinkMember (fold : String → String) (acc : Link × Option GoError)
    (m : String × JSON) : Link × Option GoError :=
  let field := matchField fold ["name", "link"] m.1
  if field = some "name" then
    let r := decodeString acc.1.Name m.2
    ({ acc.1 with Name := r.1 }, saveError acc.2 r.2)
  else if field = some "link" then
    let r := decodeString acc.1.Link m.2
    ({ acc.1 with Link := r.1 }, saveError acc.2 r.2)
  else acc

/-- Decoding into a Link: the members of an object are applied in order,
unknown keys are skipped. -/
def decodeLink (fold : String → String) (old : Link) : JSON → Link × Option GoError
  | .null => (old, none)
  | .obj members => members.foldl (decodeLinkMember fold) (old, none)
  | j => (old, some (unmarshalTypeError j "libwebring.Link"))

/-- The elements of a JSON array decoded into a slice of Links: element i is
decoded into the existing element i of the slice when there is one, else into
a zero Link.  The slice is taken to have no spare capacity: with spare
capacity the library decodes into the stale elements between length and
capacity, which a list does not carry; a fresh record has none. -/
def decodeRingElems (fold : String → String) : List Link → List JSON → Ring × Option GoError
  | _, [] => ([], none)
  | olds, j :: js =>
    let r := decodeLink fold (olds.headD Link.zero) j
    let rs := decodeRingElems fold olds.tail js
    (r.1 :: rs.1, saveError r.2 rs.2)

/-- Decoding into a Ring: `null` gives the nil slice, an array gives a slice of
the array's length. -/
def decodeRing (fold : String → String) (old : Ring) : JSON → Ring × Option GoError
  | .null => ([], none)
  | .arr elems => decodeRingElems fold old elems
  | j => (old, some (unmarshalTypeError j "libwebring.Ring"))

/-- One member of a JSON object decoded into a LinkStatus. -/
def decodeLinkStatusMember (fold : String → String) (acc : LinkStatus × Option GoError)
    (m : String × JSON) : LinkStatus × Option GoError :=
  let field := matchField fold ["dead", "missingWebring"] m.1
  if field = some "dead" then
    let r := decodeBool acc.1.Dead m.2
    ({ acc.1 with Dead := r.1 }, saveError acc.2 r.2)
  else if field = some "missingWebring" then
    let r := decodeBool acc.1.MissingWebring m.2
    ({ acc.1 with MissingWebring := r.1 }, saveError acc.2 r.2)
  else acc

/-- Decoding into a LinkStatus. -/
def decodeLinkStatus (fold : String → String) (old : LinkStatus) :
    JSON → LinkStatus × Option GoError
  | .null => (old, none)
  | .obj members => members.foldl (decodeLinkStatusMember fold) (old, none)
  | j => (old, some (unmarshalTypeError j "libwebring.LinkStatus"))

/-- Decoding into an Anomalies map: `null` gives the nil map; each member of an
object is decoded into a zero LinkStatus and assigned to its key. -/
def decodeAnomalies (fold : String → String) (old : Anomalies) :
    JSON → Anomalies × Option GoError
  | .null => ([], none)
  | .obj members =>
    members.foldl (fun acc m =>
      let r := decodeLinkStatus fold LinkStatus.zero m.2
      (acc.1.set m.1 r.1, saveError acc.2 r.2)) (old, none)
  | j => (old, some (unmarshalTypeError j "libwebring.Anomalies"))

/-! ## Document codec: decoding -/

/-- One member of a JSON object decoded into `raw`, the method-less copy of
Data that UnmarshalJSON declares (`type raw Data`). -/
def decodeRawDataMember (fold : String → String) (acc : Data × Option GoError)
    (m : String × JSON) : Data × Option GoError :=
  let field := matchField fold ["version", "name", "root", "ring"] m.1
  if field = some "version" then
    let r := decodeInt acc.1.Version m.2
    ({ acc.1 with Version := r.1 }, saveError acc.2 r.2)
  else if field = some "name" then
    let r := decodeString acc.1.Name m.2
    ({ acc.1 with Name := r.1 }, saveError acc.2 r.2)
  else if field = some "root" then
    let r := decodeString acc.1.Root m.2
    ({ acc.1 with Root := r.1 }, saveError acc.2 r.2)
  else if field = some "ring" then
    let r := decodeRing fold acc.1.Ring m.2
    ({ acc.1 with Ring := r.1 }, saveError acc.2 r.2)
  else acc

/-- Decoding a JSON value into `raw` (fields of Data, no methods). -/
def decodeRawData (fold : String → String) (old : Data) : JSON → Data × Option GoError
  | .null => (old, none)
  | .obj members => members.foldl (decodeRawDataMember fold) (old, none)
  | j => (old, some (unmarshalTypeError j "libwebring.raw"))

/-- The call `json.Unmarshal(b, (*raw)(w))`.  The bytes `b` are given as the
scanner sees them: `.error msg` when they are not one valid JSON value (the
target is then left untouched), `.ok j` for the value they spell.  The result
is the record the pointer refers to after the call and the returned error. -/
def jsonUnmarshalRawData (fold : String → String) (w : Data) (b : Except String JSON) :
    Data × Option GoError :=
  match b with
  | .error msg => (w, some (.json msg))
  | .ok j => decodeRawData fold w j

/-- The method `(*Data).UnmarshalJSON`: the receiver after the call and the
returned error. -/
def Data.UnmarshalJSON (fold : String → String) (w : Data) (b : Except String JSON) :
    Data × Option GoError :=
  match jsonUnmarshalRawData fold w b with
  | (w1, some err) => (w1, some err)
  | (w1, none) =>
    if w1.Version ≠ 1 then (w1, some (.errorString "only version 1 is supported"))
    else (w1, none)

/-- One member of a JSON object decoded into the method-less copy of
StatusData. -/
def decodeRawStatusDataMember (fold : String → String) (acc : StatusData × Option GoError)
    (m : String × JSON) : StatusData × Option GoError :=
  let field := matchField fold ["version", "anomalies"] m.1
  if field = some "version" then
    let r := decodeInt acc.1.Version m.2
    ({ acc.1 with Version := r.1 }, saveError acc.2 r.2)
  else if field = some "anomalies" then
    let r := decodeAnomalies fold acc.1.Anomalies m.2
    ({ acc.1 with Anomalies := r.1 }, saveError acc.2 r.2)
  else acc

/-- Decoding a JSON value into the method-less copy of StatusData. -/
def decodeRawStatusData (fold : String → String) (old : StatusData) :
    JSON → StatusData × Option GoError
  | .null => (old, none)
  | .obj members => members.foldl (decodeRawStatusDataMember fold) (old, none)
  | j => (old, some (unmarshalTypeError j "libwebring.raw"))

/-- The call `json.Unmarshal(b, (*raw)(w))` of `(*StatusData).UnmarshalJSON`. -/
def jsonUnmarshalRawStatusData (fold : String → String) (w : StatusData)
    (b : Except String JSON) : StatusData × Option GoError :=
  match b with
  | .error msg => (w, some (.json msg))
  | .ok j => decodeRawStatusData fold w j

/-- The method `(*StatusData).UnmarshalJSON`: the receiver after the call and
the returned error. -/
def StatusData.UnmarshalJSON (fold : String → String) (w : StatusData)
    (b : Except String JSON) : StatusData × Option GoError :=
  match jsonUnmarshalRawStatusData fold w b with
  | (w1, some err) => (w1, some err)
  | (w1, none) =>
    if w1.Version ≠ 1 then (w1, some (.errorString "only version 1 is supported"))
    else (w1, none)

/-! ## Document codec: encoding -/

/-- A named Go struct type, as far as method promotion sees it: its fields and
the methods declared on it with a value receiver. -/
structure GoNamedStruct where
  name : String
  fields : List String
  valueMethods : List String
deriving Repr

/-- An anonymous Go struct type: its declared fields and the named struct types
it embeds. -/
structure GoAnonStruct where
  fields : List String
  embedded : List GoNamedStruct
deriving Repr

/-- The method set of an anonymous struct type (Go specification, "Selectors"
and "Struct types"): a value-receiver method `m` of an embedded type is
promoted when `x.m` is a legal selector, that is, no field at depth zero is
named `m` and exactly one field or method at depth one is. -/
def GoAnonStruct.hasMethod (t : GoAnonStruct) (m : String) : Bool :=
  !((t.fields ++ t.embedded.map (fun e => e.name)).contains m)
    && (t.embedded.flatMap (fun e => e.valueMethods)).contains m
    && (t.embedded.flatMap (fun e => e.fields ++ e.valueMethods)).count m == 1

/-- The type Data: four fields, and `MarshalJSON` declared with a value
receiver (`UnmarshalJSON` has a pointer receiver). -/
def typeData : GoNamedStruct :=
  { name := "Data", fields := ["Version", "Name", "Root", "Ring"],
    valueMethods := ["MarshalJSON"] }

/-- The type StatusData: two fields, and `MarshalJSON` declared with a value
receiver. -/
def typeStatusData : GoNamedStruct :=
  { name := "StatusData", fields := ["Version", "Anomalies"],
    valueMethods := ["MarshalJSON"] }

/-- The value Data.MarshalJSON hands to json.Marshal, of type
`struct { Version int; Data }`. -/
structure Data.Versioned where
  Version : Int
  Data : Data
deriving Repr

/-- The type `struct { Version int; Data }`. -/
def Data.Versioned.goType : GoAnonStruct :=
  { fields := ["Version"], embedded := [typeData] }

/-- The value StatusData.MarshalJSON hands to json.Marshal, of type
`struct { Version int; StatusData }`. -/
structure StatusData.Versioned where
  Version : Int
  StatusData : StatusData
deriving Repr

/-- The type `struct { Version int; StatusData }`. -/
def StatusData.Versioned.goType : GoAnonStruct :=
  { fields := ["Version"], embedded := [typeStatusData] }

/-- Field-wise encoding of a Link. -/
def encodeLink (l : Link) : JSON :=
  .obj [("name", .str l.Name), ("link", .str l.Link)]

/-- Field-wise encoding of a Ring (a nil slice, which a list does not tell from
an empty one, is written `null` by the library). -/
def encodeRing (r : Ring) : JSON :=
  .arr (r.map encodeLink)

/-- Field-wise encoding of a LinkStatus: both fields are `omitempty`. -/
def encodeLinkStatus (st : LinkStatus) : JSON :=
  .obj ((if st.Dead then [("dead", JSON.bool true)] else [])
    ++ (if st.MissingWebring then [("missingWebring", JSON.bool true)] else []))

/-- Field-wise encoding of an Anomalies map: the keys are written sorted. -/
def encodeAnomalies (m : Anomalies) : JSON :=
  .obj ((List.mergeSort m (fun a b => !(decide (b.1 < a.1)))).map
    (fun kv => (kv.1, encodeLinkStatus kv.2)))

/-- Field-wise encoding of `struct { Version int; Data }`: the outer `version`
hides the one of the embedded Data; `name` and `root` are `omitempty`. -/
def Data.Versioned.encodeFields (s : Data.Versioned) : JSON :=
  .obj ([("version", JSON.int s.Version)]
    ++ (if s.Data.Name = "" then [] else [("name", JSON.str s.Data.Name)])
    ++ (if s.Data.Root = "" then [] else [("root", JSON.str s.Data.Root)])
    ++ [("ring", encodeRing s.Data.Ring)])

/-- Field-wise encoding of `struct { Version int; StatusData }`. -/
def StatusData.Versioned.encodeFields (s : StatusData.Versioned) : JSON :=
  .obj [("version", JSON.int s.Version), ("anomalies", encodeAnomalies s.StatusData.Anomalies)]

/-- The method `Data.MarshalJSON`, with a bound `fuel` on the depth of nested
calls: `none` says the bound was reached before the call returned.

The body is `json.Marshal(struct{ Version int; Data }{1, w})`.  json.Marshal
first asks whether the type of its argument implements `json.Marshaler`; if so
it calls the argument's `MarshalJSON` and returns what that returns, otherwise
it encodes the fields.  The method of the argument is the promoted one, so the
call is `Data.MarshalJSON` on the embedded field. -/
def Data.MarshalJSON : Nat → Data → Option (Except GoError JSON)
  | 0, _ => none
  | fuel + 1, w =>
    let s : Data.Versioned := { Version := 1, Data := w }
    if Data.Versioned.goType.hasMethod "MarshalJSON" then Data.MarshalJSON fuel s.Data
    else some (.ok s.encodeFields)

/-- The method `StatusData.MarshalJSON`, with a bound `fuel` on the depth of
nested calls; see `Data.MarshalJSON`. -/
def StatusData.MarshalJSON : Nat → StatusData → Option (Except GoError JSON)
  | 0, _ => none
  | fuel + 1, w =>
    let s : StatusData.Versioned := { Version := 1, StatusData := w }
    if StatusData.Versioned.goType.hasMethod "MarshalJSON" then
      StatusData.MarshalJSON fuel s.StatusData
    else some (.ok s.encodeFields)

/-- Encoding a Data and decoding the output into a fresh record,
`decode(encode(x))`: `none` when the encoding does not return within `fuel`
nested calls; an encoding error is passed on with the fresh record. -/
def Data.roundTrip (fold : String → String) (fuel : Nat) (x : Data) :
    Option (Data × Option GoError) :=
  match Data.MarshalJSON fuel x with
  | none => none
  | some (.error err) => some (Data.zero, some err)
  | some (.ok j) => some (Data.UnmarshalJSON fold Data.zero (.ok j))

/-- Encoding a StatusData and decoding the output into a fresh record. -/
def StatusData.roundTrip (fold : String → String) (fuel : Nat) (x : StatusData) :
    Option (StatusData × Option GoError) :=
  match StatusData.MarshalJSON fuel x with
  | none => none
  | some (.error err) => some (StatusData.zero, some err)
  | some (.ok j) => some (StatusData.UnmarshalJSON fold StatusData.zero (.ok j))

/-! ## Fetch client -/

/-- What the HTTP side of fetchJSON can come to: `http.NewRequestWithContext`
fails, `http.DefaultClient.Do` fails (transport error or cancellation), or a
response arrives with its `StatusCode`, its `Status` line and its body.  The
body is given as the stream decoder sees its first value: `.error msg` when
reading or scanning it fails, `.ok j` for the JSON value it spells. -/
inductive HTTPOutcome where
  | requestError (err : GoError)
  | transportError (err : GoError)
  | response (StatusCode : Int) (Status : String) (Body : Except String JSON)

/-- The generic `fetchJSON[T]` as a function of the HTTP outcome.  `zero` is
`var data T` and `unmarshal` is what `json.NewDecoder(resp.Body).Decode(&data)`
does to it, the UnmarshalJSON of `*T`.  The result is the pair `(*T, error)`,
`none` standing for `nil`. -/
def fetchJSON {T : Type} (zero : T) (unmarshal : T → Except String JSON → T × Option GoError)
    (outcome : HTTPOutcome) : Option T × Option GoError :=
  match outcome with
  | .requestError err => (none, some err)
  | .transportError err =>
    (none, some (.errorString ("failed to fetch webring data: " ++ err.Error)))
  | .response StatusCode Status Body =>
    if StatusCode ≠ 200 then
      (none, some (.errorString ("failed to fetch webring data: " ++ Status)))
    else
      match unmarshal zero Body with
      | (_, some err) =>
        (none, some (.errorString ("failed to decode webring data: " ++ err.Error)))
      | (data, none) => (some data, none)

/-- FetchData fetches the webring data from the given URL; `http` says what a
GET of each URL comes to. -/
def FetchData (fold : String → String) (http : String → HTTPOutcome) (webringURL : String) :
    Option Data × Option GoError :=
  fetchJSON Data.zero (Data.UnmarshalJSON fold) (http webringURL)

/-- FetchStatus fetches the status data from the given URL. -/
def FetchStatus (fold : String → String) (http : String → HTTPOutcome) (statusURL : String) :
    Option StatusData × Option GoError :=
  fetchJSON StatusData.zero (StatusData.UnmarshalJSON fold) (http statusURL)

/-- FetchStatusForWebring fetches the status data for the given webring URL;
it guesses the status URL from the webring URL. -/
def FetchStatusForWebring (fold : String → String) (http : String → HTTPOutcome)
    (webringURL : String) : Option StatusData × Option GoError :=
  fetchJSON StatusData.zero (StatusData.UnmarshalJSON fold) (http (GuessStatusURL webringURL))

/-! ## Values used in examples -/

/-- The ring of the anomaly-exclusion scenario of the specification. -/
def exampleRing : Ring :=
  [⟨"a", "a.example"⟩, ⟨"b", "b.example"⟩, ⟨"c", "c.example"⟩]

/-- A link with its name replaced by `g` of the name, the address kept. -/
def Link.rename (g : String → String) (l : Libwebring.Link) : Libwebring.Link :=
  { l with Name := g l.Name }

/-- An HTTP side that answers every URL with the same outcome. -/
def httpConst (outcome : HTTPOutcome) : String → HTTPOutcome :=
  fun _ => outcome

/-! ## Auxiliary lemmas -/

theorem Ring.index_of_nonneg (r : Ring) (j : Int) (h : 0 ≤ j) : r.index j = r[j.toNat]? := by
  unfold Ring.index
  rw [if_neg (by omega)]

theorem Ring.index_natCast (r : Ring) (k : Nat) : r.index (k : Int) = r[k]? := by
  rw [Ring.index_of_nonneg r _ (by omega)]
  simp

/-- On a valid index the guard of SurroundingIndex is passed and both slice
reads are in range; the result is stated with natural-number positions. -/
theorem Ring.SurroundingIndex_nat (r : Ring) (k : Nat) (hk : k < r.length) :
    r.SurroundingIndex (k : Int) =
      some (r.get ⟨if 0 < k then k - 1 else r.length - 1, by split <;> omega⟩,
            r.get ⟨if k + 1 < r.length then k + 1 else 0, by split <;> omega⟩) := by
  unfold Ring.SurroundingIndex
  rw [if_neg (by omega)]
  have e1 : (if (k : Int) > 0 then r.index ((k : Int) - 1) else r.index ((r.length : Int) - 1))
      = r[if 0 < k then k - 1 else r.length - 1]? := by
    by_cases h : 0 < k
    · rw [if_pos (by omega), if_pos h]
      have : ((k : Int) - 1) = ((k - 1 : Nat) : Int) := by omega
      rw [this, Ring.index_natCast]
    · rw [if_neg (by omega), if_neg h]
      have : ((r.length : Int) - 1) = ((r.length - 1 : Nat) : Int) := by omega
      rw [this, Ring.index_natCast]
  have e2 : (if (k : Int) < (r.length : Int) - 1 then r.index ((k : Int) + 1) else r.index 0)
      = r[if k + 1 < r.length then k + 1 else 0]? := by
    by_cases h : k + 1 < r.length
    · rw [if_pos (by omega), if_pos h]
      have : ((k : Int) + 1) = ((k + 1 : Nat) : Int) := by omega
      rw [this, Ring.index_natCast]
    · rw [if_neg (by omega), if_neg h]
      exact Ring.index_natCast r 0
  rw [e1, e2]
  rw [List.getElem?_eq_getElem (by split <;> omega), List.getElem?_eq_getElem (by split <;> omega)]
  rfl

/-- The scan of SurroundingLinks, started at index `base` on the remaining
elements `rest`: it stops at the least position of `rest` holding `link`. -/
theorem Ring.SurroundingLinks.loop_found (r : Ring) (link : Link) (rest : List Link) :
    ∀ (base : Int) (j : Nat), rest[j]? = some link → (∀ k, k < j → rest[k]? ≠ some link) →
      Ring.SurroundingLinks.loop r link rest base = r.SurroundingIndex (base + j) := by
  induction rest with
  | nil => intro base j hj; simp at hj
  | cons l rest ih =>
    intro base j hj hmin
    cases j with
    | zero =>
      simp at hj
      simp [Ring.SurroundingLinks.loop, hj]
    | succ j =>
      have hne : l ≠ link := by
        intro h
        exact hmin 0 (by omega) (by simp [h])
      have hj2 : rest[j]? = some link := by simpa using hj
      have hmin2 : ∀ k, k < j → rest[k]? ≠ some link := by
        intro k hk
        have := hmin (k + 1) (by omega)
        simpa using this
      rw [Ring.SurroundingLinks.loop, if_neg hne, ih (base + 1) j hj2 hmin2]
      congr 1
      push_cast
      ring

theorem Ring.SurroundingLinks.loop_not_found (r : Ring) (link : Link) (rest : List Link) :
    ∀ (base : Int), link ∉ rest →
      Ring.SurroundingLinks.loop r link rest base = some (Link.zero, Link.zero) := by
  induction rest with
  | nil => intro base _; rfl
  | cons l rest ih =>
    intro base h
    have hne : l ≠ link := fun e => h (by simp [e])
    have hrest : link ∉ rest := fun e => h (by simp [e])
    rw [Ring.SurroundingLinks.loop, if_neg hne, ih (base + 1) hrest]

/-- Every element that occurs in a list has a least position. -/
theorem exists_least_position (q : Link) (r : List Link) (h : q ∈ r) :
    ∃ j : Nat, r[j]? = some q ∧ ∀ k, k < j → r[k]? ≠ some q := by
  induction r with
  | nil => simp at h
  | cons l r ih =>
    by_cases e : l = q
    · exact ⟨0, by simp [e], fun k hk => by omega⟩
    · have hr : q ∈ r := by
        rcases List.mem_cons.mp h with h1 | h1
        · exact absurd h1.symm e
        · exact h1
      obtain ⟨j, hj, hmin⟩ := ih hr
      refine ⟨j + 1, by simpa using hj, ?_⟩
      intro k hk
      cases k with
      | zero => simpa using e
      | succ k => simpa using hmin k (by omega)

theorem Ring.Filter.foldl_eq (f : Link → Bool) (r : List Link) :
    ∀ acc : List Link,
      r.foldl (fun filtered link => if f link then filtered ++ [link] else filtered) acc
        = acc ++ r.filter f := by
  induction r with
  | nil => intro acc; simp
  | cons l r ih =>
    intro acc
    rw [List.foldl_cons, ih]
    by_cases h : f l = true
    · simp [h]
    · simp [h]

theorem Ring.Filter_eq_filter (r : Ring) (f : Link → Bool) : r.Filter f = r.filter f := by
  unfold Ring.Filter
  rw [Ring.Filter.foldl_eq]
  simp

theorem Anomalies.has_iff (anomalies : Anomalies) (key : String) :
    anomalies.has key = true ↔ key ∈ anomalies.map Prod.fst := by
  unfold Anomalies.has
  induction anomalies with
  | nil => simp [List.lookup]
  | cons kv rest ih =>
    obtain ⟨k, v⟩ := kv
    by_cases h : key = k
    · subst h
      simp [List.lookup]
    · have hb : (key == k) = false := by simpa using h
      simp only [List.lookup, hb, List.map_cons, List.mem_cons, h, false_or]
      exact ih

/-! ## Claims about the ring algebra -/

/-- C1: on a ring of length n ≥ 1 and an index 0 ≤ i < n, SurroundingIndex
returns (prev, next) with prev = R[i-1] when i > 0 and R[n-1] when i = 0, next
= R[i+1] when i < n-1 and R[0] when i = n-1; equivalently prev = R[(i+n-1) mod n]
and next = R[(i+1) mod n]. -/
theorem C1_surroundingIndex_neighbours (r : Ring) (i : Int)
    (h0 : 0 ≤ i) (hn : i < (r.length : Int)) :
    ∃ prev next, r.SurroundingIndex i = some (prev, next)
      ∧ (0 < i → r[(i - 1).toNat]? = some prev)
      ∧ (i = 0 → r[r.length - 1]? = some prev)
      ∧ (i < (r.length : Int) - 1 → r[(i + 1).toNat]? = some next)
      ∧ (i = (r.length : Int) - 1 → r[0]? = some next)
      ∧ r[((i + (r.length : Int) - 1) % (r.length : Int)).toNat]? = some prev
      ∧ r[((i + 1) % (r.length : Int)).toNat]? = some next := by
  obtain ⟨k, rfl⟩ := Int.eq_ofNat_of_zero_le h0
  have hk : k < r.length := by omega
  refine ⟨_, _, Ring.SurroundingIndex_nat r k hk, ?_, ?_, ?_, ?_, ?_, ?_⟩
  · intro h
    have hpos : 0 < k := by omega
    have e : ((k : Int) - 1).toNat = k - 1 := by omega
    rw [e, List.getElem?_eq_getElem (by omega)]
    simp [List.get_eq_getElem, hpos]
  · intro h
    have hz : k = 0 := by omega
    subst hz
    rw [List.getElem?_eq_getElem (by omega)]
    simp [List.get_eq_getElem]
  · intro h
    have hlt : k + 1 < r.length := by omega
    have e : ((k : Int) + 1).toNat = k + 1 := by omega
    rw [e, List.getElem?_eq_getElem hlt]
    simp [List.get_eq_getElem, hlt]
  · intro h
    have hlt : ¬ (k + 1 < r.length) := by omega
    rw [List.getElem?_eq_getElem (by omega)]
    simp [List.get_eq_getElem, hlt]
  · have e : (((k : Int) + (r.length : Int) - 1) % (r.length : Int)).toNat
        = if 0 < k then k - 1 else r.length - 1 := by
      by_cases hpos : 0 < k
      · rw [if_pos hpos]
        have : ((k : Int) + (r.length : Int) - 1) = ((k - 1 : Nat) : Int) + (r.length : Int) := by
          omega
        rw [this, Int.add_emod_self, Int.emod_eq_of_lt (by omega) (by omega)]
        omega
      · rw [if_neg hpos]
        have hz : k = 0 := by omega
        subst hz
        rw [Int.emod_eq_of_lt (by omega) (by omega)]
        omega
    rw [e, List.getElem?_eq_getElem (by split <;> omega)]
    rfl
  · have e : (((k : Int) + 1) % (r.length : Int)).toNat
        = if k + 1 < r.length then k + 1 else 0 := by
      by_cases hlt : k + 1 < r.length
      · rw [if_pos hlt, Int.emod_eq_of_lt (by omega) (by omega)]
        omega
      · rw [if_neg hlt]
        have : ((k : Int) + 1) = (r.length : Int) := by omega
        rw [this, Int.emod_self]
        rfl
    rw [e, List.getElem?_eq_getElem (by split <;> omega)]
    rfl

/-- C1 at the three-element ring of the test suite, index 0. -/
theorem C1_surroundingIndex_neighbours_witness :
    ∃ prev next, testRing3.SurroundingIndex 0 = some (prev, next)
      ∧ ((0 : Int) < 0 → testRing3[((0 : Int) - 1).toNat]? = some prev)
      ∧ ((0 : Int) = 0 → testRing3[testRing3.length - 1]? = some prev)
      ∧ ((0 : Int) < (testRing3.length : Int) - 1 → testRing3[((0 : Int) + 1).toNat]? = some next)
      ∧ ((0 : Int) = (testRing3.length : Int) - 1 → testRing3[0]? = some next)
      ∧ testRing3[(((0 : Int) + (testRing3.length : Int) - 1) % (testRing3.length : Int)).toNat]?
          = some prev
      ∧ testRing3[(((0 : Int) + 1) % (testRing3.length : Int)).toNat]? = some next :=
  C1_surroundingIndex_neighbours testRing3 0 (by decide) (by decide)

/-- C2: for every ring and every integer index, SurroundingIndex never indexes
the ring out of bounds (it always returns a pair, never panics), and whenever
the ring is empty or i < 0 or i ≥ len(R) the pair is (Link{}, Link{}). -/
theorem C2_surroundingIndex_safe (r : Ring) (i : Int) :
    (r.SurroundingIndex i).isSome = true
      ∧ (r.length = 0 ∨ i < 0 ∨ i ≥ (r.length : Int) →
          r.SurroundingIndex i = some (Link.zero, Link.zero)) := by
  constructor
  · by_cases g : r.length = 0 ∨ i < 0 ∨ i ≥ (r.length : Int)
    · unfold Ring.SurroundingIndex
      rw [if_pos g]
      rfl
    · have h0 : 0 ≤ i := by omega
      obtain ⟨k, rfl⟩ := Int.eq_ofNat_of_zero_le h0
      rw [Ring.SurroundingIndex_nat r k (by omega)]
      rfl
  · intro g
    unfold Ring.SurroundingIndex
    rw [if_pos g]

/-- C2 at the empty ring with a negative index. -/
theorem C2_surroundingIndex_safe_witness :
    Ring.SurroundingIndex [] (-1) = some (Link.zero, Link.zero) :=
  (C2_surroundingIndex_safe [] (-1)).2 (by decide)

/-- C3: on a non-empty ring and a valid index both links returned by
SurroundingIndex are elements of the ring, and for every link q that occurs in
the ring both links returned by SurroundingLinks(q) are elements of the ring. -/
theorem C3_neighbours_drawn_from_ring (r : Ring) :
    (∀ i : Int, 0 ≤ i → i < (r.length : Int) →
        ∃ prev next, r.SurroundingIndex i = some (prev, next) ∧ prev ∈ r ∧ next ∈ r)
      ∧ (∀ q : Link, q ∈ r →
        ∃ prev next, r.SurroundingLinks q = some (prev, next) ∧ prev ∈ r ∧ next ∈ r) := by
  have hidx : ∀ i : Int, 0 ≤ i → i < (r.length : Int) →
      ∃ prev next, r.SurroundingIndex i = some (prev, next) ∧ prev ∈ r ∧ next ∈ r := by
    intro i h0 hn
    obtain ⟨k, rfl⟩ := Int.eq_ofNat_of_zero_le h0
    exact ⟨_, _, Ring.SurroundingIndex_nat r k (by omega), List.get_mem _ _ _, List.get_mem _ _ _⟩
  refine ⟨hidx, ?_⟩
  intro q hq
  obtain ⟨j, hj, hmin⟩ := exists_least_position q r hq
  have hlt : j < r.length := by
    by_contra hge
    rw [List.getElem?_eq_none (by omega)] at hj
    exact Option.noConfusion hj
  have e : r.SurroundingLinks q = r.SurroundingIndex (j : Int) := by
    unfold Ring.SurroundingLinks
    rw [Ring.SurroundingLinks.loop_found r q r 0 j hj hmin]
    simp
  rw [e]
  exact hidx (j : Int) (by omega) (by omega)

/-- C3 at the three-element test ring: index 1 and the link b. -/
theorem C3_neighbours_drawn_from_ring_witness :
    (∃ prev next, testRing3.SurroundingIndex 1 = some (prev, next)
        ∧ prev ∈ testRing3 ∧ next ∈ testRing3)
      ∧ (∃ prev next, testRing3.SurroundingLinks ⟨"b", "https://b"⟩ = some (prev, next)
        ∧ prev ∈ testRing3 ∧ next ∈ testRing3) :=
  ⟨(C3_neighbours_drawn_from_ring testRing3).1 1 (by decide) (by decide),
   (C3_neighbours_drawn_from_ring testRing3).2 ⟨"b", "https://b"⟩ (by decide)⟩

/-- C4: SurroundingLinks(q) equals SurroundingIndex(j) for the least index j
with R[j] structurally equal to q (also when q occurs several times), such a j
exists whenever q occurs in R, and the result is (Link{}, Link{}) when no
element of R equals q. -/
theorem C4_surroundingLinks_first_match (r : Ring) (q : Link) :
    (∀ j : Nat, r[j]? = some q → (∀ k, k < j → r[k]? ≠ some q) →
        r.SurroundingLinks q = r.SurroundingIndex (j : Int))
      ∧ (q ∈ r → ∃ j : Nat, r[j]? = some q ∧ (∀ k, k < j → r[k]? ≠ some q)
            ∧ r.SurroundingLinks q = r.SurroundingIndex (j : Int))
      ∧ (q ∉ r → r.SurroundingLinks q = some (Link.zero, Link.zero)) := by
  have hfound : ∀ j : Nat, r[j]? = some q → (∀ k, k < j → r[k]? ≠ some q) →
      r.SurroundingLinks q = r.SurroundingIndex (j : Int) := by
    intro j hj hmin
    unfold Ring.SurroundingLinks
    rw [Ring.SurroundingLinks.loop_found r q r 0 j hj hmin]
    simp
  refine ⟨hfound, ?_, ?_⟩
  · intro hq
    obtain ⟨j, hj, hmin⟩ := exists_least_position q r hq
    exact ⟨j, hj, hmin, hfound j hj hmin⟩
  · intro hq
    exact Ring.SurroundingLinks.loop_not_found r q r 0 hq

/-- C4 on a ring with duplicates: looking up b uses its first position, 1,
and looking up an absent link gives the zero pair. -/
theorem C4_surroundingLinks_first_match_witness :
    dupRing.SurroundingLinks ⟨"b", "https://b"⟩ = dupRing.SurroundingIndex ((1 : Nat) : Int)
      ∧ dupRing.SurroundingLinks ⟨"z", "https://z"⟩ = some (Link.zero, Link.zero) :=
  ⟨(C4_surroundingLinks_first_match dupRing ⟨"b", "https://b"⟩).1 1 (by decide) (by decide),
   (C4_surroundingLinks_first_match dupRing ⟨"z", "https://z"⟩).2.2 (by decide)⟩

/-- C5: Filter(p) is the sequence of exactly those elements of the ring for
which p returns true, in their original relative order with multiplicity: it
equals the list filter of the ring by p, hence is a subsequence of the ring. -/
theorem C5_filter_is_list_filter (r : Ring) (p : Link → Bool) :
    r.Filter p = List.filter p r
      ∧ List.Sublist (r.Filter p) r
      ∧ (∀ l : Link, l ∈ r.Filter p ↔ l ∈ r ∧ p l = true)
      ∧ (∀ l : Link, p l = true → List.count l (r.Filter p) = List.count l r) := by
  rw [Ring.Filter_eq_filter]
  refine ⟨rfl, List.filter_sublist r, ?_, ?_⟩
  · intro l
    exact List.mem_filter
  · intro l hl
    exact List.count_filter hl

/-- C6: ExcludeAnomalies(A) equals Filter applied with the predicate
'link.Link is not a key of A': it contains, in original order, exactly those
links of the ring whose address string is not a key of A. -/
theorem C6_excludeAnomalies_is_filter (r : Ring) (anomalies : Anomalies) :
    r.ExcludeAnomalies anomalies
        = r.Filter (fun link => decide (link.Link ∉ anomalies.map Prod.fst))
      ∧ r.ExcludeAnomalies anomalies
        = List.filter (fun link => decide (link.Link ∉ anomalies.map Prod.fst)) r
      ∧ (∀ l : Link, l ∈ r.ExcludeAnomalies anomalies
          ↔ l ∈ r ∧ l.Link ∉ anomalies.map Prod.fst) := by
  have hp : (fun link : Link => !(anomalies.has link.Link))
      = (fun link : Link => decide (link.Link ∉ anomalies.map Prod.fst)) := by
    funext link
    by_cases h : link.Link ∈ anomalies.map Prod.fst
    · rw [(Anomalies.has_iff anomalies link.Link).mpr h]
      simp [h]
    · have hf : anomalies.has link.Link = false := by
        cases hb : anomalies.has link.Link with
        | false => rfl
        | true => exact absurd ((Anomalies.has_iff anomalies link.Link).mp hb) h
      rw [hf]
      simp [h]
  have e1 : r.ExcludeAnomalies anomalies
      = r.Filter (fun link => decide (link.Link ∉ anomalies.map Prod.fst)) := by
    unfold Ring.ExcludeAnomalies
    rw [hp]
  refine ⟨e1, ?_, ?_⟩
  · rw [e1, Ring.Filter_eq_filter]
  · intro l
    rw [e1, Ring.Filter_eq_filter, List.mem_filter]
    simp

/-- C7: the length of ExcludeAnomalies(A) is |Ring| - |Ring ∩ Anomalies|, where
|Ring ∩ Anomalies| counts the positions of the ring (duplicates included) whose
address is a key of A; the count never exceeds |Ring|. -/
theorem C7_excludeAnomalies_length (r : Ring) (anomalies : Anomalies) :
    (r.ExcludeAnomalies anomalies).length
        = r.length - List.countP (fun link => decide (link.Link ∈ anomalies.map Prod.fst)) r
      ∧ (r.ExcludeAnomalies anomalies).length
          + List.countP (fun link => decide (link.Link ∈ anomalies.map Prod.fst)) r
        = r.length := by
  have hlen : (r.ExcludeAnomalies anomalies).length
      + List.countP (fun link => decide (link.Link ∈ anomalies.map Prod.fst)) r = r.length := by
    unfold Ring.ExcludeAnomalies
    rw [Ring.Filter_eq_filter]
    induction r with
    | nil => rfl
    | cons l r ih =>
      by_cases h : l.Link ∈ anomalies.map Prod.fst
      · have hb : anomalies.has l.Link = true := (Anomalies.has_iff anomalies l.Link).mpr h
        rw [List.filter_cons_of_neg (by simp [hb]), List.countP_cons_of_pos _ _ (by simpa using h)]
        simp only [List.length_cons]
        omega
      · have hb : anomalies.has l.Link = false := by
          cases hb : anomalies.has l.Link with
          | false => rfl
          | true => exact absurd ((Anomalies.has_iff anomalies l.Link).mp hb) h
        rw [List.filter_cons_of_pos (by simp [hb]), List.countP_cons_of_neg _ _ (by simpa using h)]
        simp only [List.length_cons]
        omega
  exact ⟨by omega, hlen⟩

/-! ## Claims about the status URL -/

theorem stringsReplaceFirst_at (old new : List Char) (hold : old ≠ []) (post : List Char) :
    ∀ pre : List Char,
      (∀ k, k < pre.length → ¬ (old <+: (pre ++ old ++ post).drop k)) →
      stringsReplaceFirst old new (pre ++ old ++ post) = pre ++ new ++ post := by
  intro pre
  induction pre with
  | nil =>
    intro _
    obtain ⟨c, cs, rfl⟩ := List.exists_cons_of_ne_nil hold
    have hp : (c :: cs).isPrefixOf (c :: (cs ++ post)) = true := by
      rw [List.isPrefixOf_iff_prefix]
      exact ⟨post, by simp⟩
    have hd : List.drop (c :: cs).length (c :: (cs ++ post)) = post := by
      simp
    show stringsReplaceFirst (c :: cs) new (c :: (cs ++ post)) = new ++ post
    rw [stringsReplaceFirst, if_pos hp, hd]
  | cons c pre ih =>
    intro hmin
    have h0 : ¬ (old <+: (c :: (pre ++ old ++ post))) := by
      have := hmin 0 (by simp)
      simpa using this
    have hp : ¬ (old.isPrefixOf (c :: (pre ++ old ++ post)) = true) := by
      rw [List.isPrefixOf_iff_prefix]
      exact h0
    have hrest : ∀ k, k < pre.length → ¬ (old <+: (pre ++ old ++ post).drop k) := by
      intro k hk
      have := hmin (k + 1) (by simp; omega)
      simpa using this
    show stringsReplaceFirst old new (c :: (pre ++ old ++ post)) = c :: (pre ++ new ++ post)
    rw [stringsReplaceFirst, if_neg hp, ih hrest]

theorem stringsReplaceFirst_absent (old new : List Char) :
    ∀ s : List Char, ¬ (old <:+: s) → stringsReplaceFirst old new s = s := by
  intro s
  induction s with
  | nil =>
    intro h
    have hold : old ≠ [] := by
      intro e
      exact h (e ▸ List.infix_refl [])
    rw [stringsReplaceFirst, if_neg hold]
  | cons c cs ih =>
    intro h
    have hp : ¬ (old.isPrefixOf (c :: cs) = true) := by
      rw [List.isPrefixOf_iff_prefix]
      intro hpre
      exact h hpre.isInfix
    have hcs : ¬ (old <:+: cs) := by
      intro hin
      exact h (hin.trans (List.suffix_cons c cs).isInfix)
    rw [stringsReplaceFirst, if_neg hp, ih hcs]

/-- C8: GuessStatusURL is total and equals pre ++ ".status.json" ++ post when
s = pre ++ ".json" ++ post and ".json" has no occurrence in s starting before
position len(pre) (only the first occurrence is replaced, later ones are kept),
and equals s itself when ".json" does not occur in s. -/
theorem C8_guessStatusURL_first_occurrence (s : String) :
    (∀ pre post : String, s = pre ++ ".json" ++ post →
        (∀ k, k < pre.length → ¬ (".json".data <+: s.data.drop k)) →
        GuessStatusURL s = pre ++ ".status.json" ++ post)
      ∧ (¬ (".json".data <:+: s.data) → GuessStatusURL s = s) := by
  constructor
  · intro pre post hs hmin
    subst hs
    have hdata : (pre ++ ".json" ++ post).data = pre.data ++ ".json".data ++ post.data := by
      simp [String.data_append]
    unfold GuessStatusURL
    rw [hdata, stringsReplaceFirst_at ".json".data ".status.json".data (by decide) post.data
      pre.data (by
        intro k hk
        have := hmin k hk
        rwa [hdata] at this)]
    apply String.ext
    simp [String.data_append]
  · intro h
    unfold GuessStatusURL
    rw [stringsReplaceFirst_absent _ _ _ h]

/-- C8 on the adversarial URL of the spec (two occurrences, the first one is
replaced) and on a URL without ".json" (unchanged). -/
theorem C8_guessStatusURL_first_occurrence_witness :
    GuessStatusURL "https://x.test/a.json/b.json" = "https://x.test/a" ++ ".status.json" ++ "/b.json"
      ∧ GuessStatusURL "https://host/no-suffix" = "https://host/no-suffix" :=
  ⟨(C8_guessStatusURL_first_occurrence "https://x.test/a.json/b.json").1
      "https://x.test/a" "/b.json" (by decide) (by decide),
   (C8_guessStatusURL_first_occurrence "https://host/no-suffix").2 (by decide)⟩

/-! ## Claims about the document codec -/

theorem matchField_sound (fold : String → String) (names : List String) (key n : String)
    (h : matchField fold names key = some n) : fold n = fold key := by
  unfold matchField at h
  split at h
  · rename_i m hm
    have hk := List.find?_some hm
    have : m = key := by simpa using hk
    cases h
    rw [this]
  · have hk := List.find?_some h
    simpa using hk

theorem decodeRawDataMember_version (fold : String → String) (acc : Data × Option GoError)
    (m : String × JSON) (h : fold m.1 ≠ fold "version") :
    (decodeRawDataMember fold acc m).1.Version = acc.1.Version := by
  unfold decodeRawDataMember
  have hv : matchField fold ["version", "name", "root", "ring"] m.1 ≠ some "version" :=
    fun e => h (matchField_sound fold _ _ _ e).symm
  simp only [hv, if_false]
  split
  · rfl
  · split
    · rfl
    · split
      · rfl
      · rfl

theorem decodeRawData_version (fold : String → String) (members : List (String × JSON)) :
    ∀ acc : Data × Option GoError, (∀ kv ∈ members, fold kv.1 ≠ fold "version") →
      (members.foldl (decodeRawDataMember fold) acc).1.Version = acc.1.Version := by
  induction members with
  | nil => intro acc _; rfl
  | cons m members ih =>
    intro acc h
    rw [List.foldl_cons, ih _ (fun kv hkv => h kv (List.mem_cons_of_mem _ hkv)),
      decodeRawDataMember_version fold acc m (h m (List.mem_cons_self _ _))]

theorem decodeRawStatusDataMember_version (fold : String → String)
    (acc : StatusData × Option GoError) (m : String × JSON) (h : fold m.1 ≠ fold "version") :
    (decodeRawStatusDataMember fold acc m).1.Version = acc.1.Version := by
  unfold decodeRawStatusDataMember
  have hv : matchField fold ["version", "anomalies"] m.1 ≠ some "version" :=
    fun e => h (matchField_sound fold _ _ _ e).symm
  simp only [hv, if_false]
  split
  · rfl
  · rfl

theorem decodeRawStatusData_version (fold : String → String) (members : List (String × JSON)) :
    ∀ acc : StatusData × Option GoError, (∀ kv ∈ members, fold kv.1 ≠ fold "version") →
      (members.foldl (decodeRawStatusDataMember fold) acc).1.Version = acc.1.Version := by
  induction members with
  | nil => intro acc _; rfl
  | cons m members ih =>
    intro acc h
    rw [List.foldl_cons, ih _ (fun kv hkv => h kv (List.mem_cons_of_mem _ hkv)),
      decodeRawStatusDataMember_version fold acc m (h m (List.mem_cons_self _ _))]

/-- UnmarshalJSON in terms of the outcome of the underlying json.Unmarshal: the
receiver is what json.Unmarshal left, the error is the one of json.Unmarshal
if any, else the verdict of the version gate. -/
theorem Data.UnmarshalJSON_gate (fold : String → String) (w : Data) (b : Except String JSON) :
    Data.UnmarshalJSON fold w b =
      ((jsonUnmarshalRawData fold w b).1,
        match (jsonUnmarshalRawData fold w b).2 with
        | some err => some err
        | none =>
          if (jsonUnmarshalRawData fold w b).1.Version ≠ 1 then
            some (.errorString "only version 1 is supported")
          else none) := by
  unfold Data.UnmarshalJSON
  rcases jsonUnmarshalRawData fold w b with ⟨w1, _ | err⟩
  · by_cases h : w1.Version = 1 <;> simp [h]
  · rfl

theorem StatusData.UnmarshalJSON_status_gate (fold : String → String) (w : StatusData)
    (b : Except String JSON) :
    StatusData.UnmarshalJSON fold w b =
      ((jsonUnmarshalRawStatusData fold w b).1,
        match (jsonUnmarshalRawStatusData fold w b).2 with
        | some err => some err
        | none =>
          if (jsonUnmarshalRawStatusData fold w b).1.Version ≠ 1 then
            some (.errorString "only version 1 is supported")
          else none) := by
  unfold StatusData.UnmarshalJSON
  rcases jsonUnmarshalRawStatusData fold w b with ⟨w1, _ | err⟩
  · by_cases h : w1.Version = 1 <;> simp [h]
  · rfl

/-- C9, as stated, fails: the fresh-record decode of the document
{"version": 2, "ring": {}} stores the version 2, yet the call does not fail
with "only version 1 is supported": the underlying decode reports a type error
for "ring" and that error is what UnmarshalJSON returns.  The same happens to
a StatusData whose "anomalies" is a number. -/
theorem C9_version_error_not_always_counterexample :
    (jsonUnmarshalRawData id Data.zero
        (.ok (.obj [("version", .int 2), ("ring", .obj [])]))).1.Version = 2
      ∧ (Data.UnmarshalJSON id Data.zero
        (.ok (.obj [("version", .int 2), ("ring", .obj [])]))).2
        ≠ some (GoError.errorString "only version 1 is supported")
      ∧ (Data.UnmarshalJSON id Data.zero
        (.ok (.obj [("version", .int 2), ("ring", .obj [])]))).2 ≠ none
      ∧ (Data.UnmarshalJSON id Data.zero
        (.ok (.obj [("version", .int 2), ("ring", .obj [])]))).2
        = (jsonUnmarshalRawData id Data.zero
            (.ok (.obj [("version", .int 2), ("ring", .obj [])]))).2
      ∧ (jsonUnmarshalRawStatusData id StatusData.zero
        (.ok (.obj [("version", .int 2), ("anomalies", .int 5)]))).1.Version = 2
      ∧ (StatusData.UnmarshalJSON id StatusData.zero
        (.ok (.obj [("version", .int 2), ("anomalies", .int 5)]))).2
        ≠ some (GoError.errorString "only version 1 is supported")
      ∧ (StatusData.UnmarshalJSON id StatusData.zero
        (.ok (.obj [("version", .int 2), ("anomalies", .int 5)]))).2 ≠ none := by
  decide

/-- C9, amended: decoding a Data or a StatusData with UnmarshalJSON into a
fresh (zero-valued) record succeeds if and only if the underlying JSON decode
succeeds and the decoded version equals 1; when the underlying decode succeeds
and the decoded version is anything other than 1 the error is "only version 1
is supported"; when the underlying decode reports an error, that error is
returned, whatever version was decoded; a document without a "version" member
decodes to version 0 and is rejected, with the unsupported-version error when
the rest of it decodes; every successfully decoded record has Version == 1. -/
theorem C9_unmarshal_version_gate (fold : String → String) :
    ((∀ b : Except String JSON,
        (Data.UnmarshalJSON fold Data.zero b).2 = none
          ↔ (jsonUnmarshalRawData fold Data.zero b).2 = none
              ∧ (jsonUnmarshalRawData fold Data.zero b).1.Version = 1)
      ∧ (∀ b : Except String JSON,
        (jsonUnmarshalRawData fold Data.zero b).2 = none →
        (jsonUnmarshalRawData fold Data.zero b).1.Version ≠ 1 →
        (Data.UnmarshalJSON fold Data.zero b).2
          = some (GoError.errorString "only version 1 is supported"))
      ∧ (∀ (b : Except String JSON) (err : GoError),
        (jsonUnmarshalRawData fold Data.zero b).2 = some err →
        (Data.UnmarshalJSON fold Data.zero b).2 = some err)
      ∧ (∀ members : List (String × JSON),
        (∀ kv ∈ members, fold kv.1 ≠ fold "version") →
        (jsonUnmarshalRawData fold Data.zero (.ok (.obj members))).1.Version = 0
          ∧ (Data.UnmarshalJSON fold Data.zero (.ok (.obj members))).2 ≠ none
          ∧ ((jsonUnmarshalRawData fold Data.zero (.ok (.obj members))).2 = none →
            (Data.UnmarshalJSON fold Data.zero (.ok (.obj members))).2
              = some (GoError.errorString "only version 1 is supported")))
      ∧ (∀ b : Except String JSON,
        (Data.UnmarshalJSON fold Data.zero b).2 = none →
        (Data.UnmarshalJSON fold Data.zero b).1.Version = 1))
    ∧ ((∀ b : Except String JSON,
        (StatusData.UnmarshalJSON fold StatusData.zero b).2 = none
          ↔ (jsonUnmarshalRawStatusData fold StatusData.zero b).2 = none
              ∧ (jsonUnmarshalRawStatusData fold StatusData.zero b).1.Version = 1)
      ∧ (∀ b : Except String JSON,
        (jsonUnmarshalRawStatusData fold StatusData.zero b).2 = none →
        (jsonUnmarshalRawStatusData fold StatusData.zero b).1.Version ≠ 1 →
        (StatusData.UnmarshalJSON fold StatusData.zero b).2
          = some (GoError.errorString "only version 1 is supported"))
      ∧ (∀ (b : Except String JSON) (err : GoError),
        (jsonUnmarshalRawStatusData fold StatusData.zero b).2 = some err →
        (StatusData.UnmarshalJSON fold StatusData.zero b).2 = some err)
      ∧ (∀ members : List (String × JSON),
        (∀ kv ∈ members, fold kv.1 ≠ fold "version") →
        (jsonUnmarshalRawStatusData fold StatusData.zero (.ok (.obj members))).1.Version = 0
          ∧ (StatusData.UnmarshalJSON fold StatusData.zero (.ok (.obj members))).2 ≠ none
          ∧ ((jsonUnmarshalRawStatusData fold StatusData.zero (.ok (.obj members))).2 = none →
            (StatusData.UnmarshalJSON fold StatusData.zero (.ok (.obj members))).2
              = some (GoError.errorString "only version 1 is supported")))
      ∧ (∀ b : Except String JSON,
        (StatusData.UnmarshalJSON fold StatusData.zero b).2 = none →
        (StatusData.UnmarshalJSON fold StatusData.zero b).1.Version = 1)) := by
  refine ⟨⟨?_, ?_, ?_, ?_, ?_⟩, ⟨?_, ?_, ?_, ?_, ?_⟩⟩
  · intro b
    rw [Data.UnmarshalJSON_gate]
    rcases jsonUnmarshalRawData fold Data.zero b with ⟨w1, _ | err⟩
    · by_cases h : w1.Version = 1 <;> simp [h]
    · simp
  · intro b hok hver
    rw [Data.UnmarshalJSON_gate, hok]
    simp [hver]
  · intro b err herr
    rw [Data.UnmarshalJSON_gate, herr]
  · intro members hmiss
    have hv : (jsonUnmarshalRawData fold Data.zero (.ok (.obj members))).1.Version = 0 := by
      show (members.foldl (decodeRawDataMember fold) (Data.zero, none)).1.Version = 0
      rw [decodeRawData_version fold members _ hmiss]
      rfl
    refine ⟨hv, ?_, ?_⟩
    · rw [Data.UnmarshalJSON_gate]
      rcases hr : (jsonUnmarshalRawData fold Data.zero (.ok (.obj members))).2 with _ | err
      · simp [hv]
      · simp
    · intro hok
      rw [Data.UnmarshalJSON_gate, hok]
      simp [hv]
  · intro b
    rw [Data.UnmarshalJSON_gate]
    rcases jsonUnmarshalRawData fold Data.zero b with ⟨w1, _ | err⟩
    · by_cases h : w1.Version = 1 <;> simp [h]
    · simp
  · intro b
    rw [StatusData.UnmarshalJSON_status_gate]
    rcases jsonUnmarshalRawStatusData fold StatusData.zero b with ⟨w1, _ | err⟩
    · by_cases h : w1.Version = 1 <;> simp [h]
    · simp
  · intro b hok hver
    rw [StatusData.UnmarshalJSON_status_gate, hok]
    simp [hver]
  · intro b err herr
    rw [StatusData.UnmarshalJSON_status_gate, herr]
  · intro members hmiss
    have hv : (jsonUnmarshalRawStatusData fold StatusData.zero (.ok (.obj members))).1.Version
        = 0 := by
      show (members.foldl (decodeRawStatusDataMember fold) (StatusData.zero, none)).1.Version = 0
      rw [decodeRawStatusData_version fold members _ hmiss]
      rfl
    refine ⟨hv, ?_, ?_⟩
    · rw [StatusData.UnmarshalJSON_status_gate]
      rcases hr : (jsonUnmarshalRawStatusData fold StatusData.zero (.ok (.obj members))).2
        with _ | err
      · simp [hv]
      · simp
    · intro hok
      rw [StatusData.UnmarshalJSON_status_gate, hok]
      simp [hv]
  · intro b
    rw [StatusData.UnmarshalJSON_status_gate]
    rcases jsonUnmarshalRawStatusData fold StatusData.zero b with ⟨w1, _ | err⟩
    · by_cases h : w1.Version = 1 <;> simp [h]
    · simp

/-- C9, amended, on two documents, with keys matched exactly: a document that
decodes with version 2 is rejected with the unsupported-version error, and a
document without a "version" member decodes to version 0 and is rejected with
the same error. -/
theorem C9_unmarshal_version_gate_witness :
    (Data.UnmarshalJSON id Data.zero
        (.ok (.obj [("version", .int 2), ("name", .str "acmRing"), ("ring", .arr [])]))).2
        = some (GoError.errorString "only version 1 is supported")
      ∧ (jsonUnmarshalRawStatusData id StatusData.zero
          (.ok (.obj [("anomalies", .obj [])]))).1.Version = 0
      ∧ (StatusData.UnmarshalJSON id StatusData.zero
          (.ok (.obj [("anomalies", .obj [])]))).2
        = some (GoError.errorString "only version 1 is supported") :=
  ⟨(C9_unmarshal_version_gate id).1.2.1
      (.ok (.obj [("version", .int 2), ("name", .str "acmRing"), ("ring", .arr [])]))
      (by decide) (by decide),
   ((C9_unmarshal_version_gate id).2.2.2.2.1 [("anomalies", .obj [])] (by decide)).1,
   ((C9_unmarshal_version_gate id).2.2.2.2.1 [("anomalies", .obj [])] (by decide)).2.2
     (by decide)⟩

/-- C10: whatever the value and however many nested calls are allowed,
Data.MarshalJSON and StatusData.MarshalJSON do not return: json.Marshal finds
the promoted MarshalJSON on the struct it is given and calls it again. -/
theorem C10_marshalJSON_never_returns :
    (∀ (fuel : Nat) (w : Data), Data.MarshalJSON fuel w = none)
      ∧ (∀ (fuel : Nat) (w : StatusData), StatusData.MarshalJSON fuel w = none) := by
  constructor
  · intro fuel
    induction fuel with
    | zero => intro w; rfl
    | succ fuel ih =>
      intro w
      have hm : Data.Versioned.goType.hasMethod "MarshalJSON" = true := by decide
      rw [Data.MarshalJSON]
      simp only [hm, if_true]
      exact ih w
  · intro fuel
    induction fuel with
    | zero => intro w; rfl
    | succ fuel ih =>
      intro w
      have hm : StatusData.Versioned.goType.hasMethod "MarshalJSON" = true := by decide
      rw [StatusData.MarshalJSON]
      simp only [hm, if_true]
      exact ih w

/-! ## Claims about the round trip and the fetch client -/

theorem Data.MarshalJSON_out_of_fuel (fuel : Nat) : ∀ w : Data, Data.MarshalJSON fuel w = none := by
  induction fuel with
  | zero => intro w; rfl
  | succ fuel ih =>
    intro w
    have hm : Data.Versioned.goType.hasMethod "MarshalJSON" = true := by decide
    rw [Data.MarshalJSON]
    simp only [hm, if_true]
    exact ih w

theorem StatusData.MarshalJSON_status_out_of_fuel (fuel : Nat) :
    ∀ w : StatusData, StatusData.MarshalJSON fuel w = none := by
  induction fuel with
  | zero => intro w; rfl
  | succ fuel ih =>
    intro w
    have hm : StatusData.Versioned.goType.hasMethod "MarshalJSON" = true := by decide
    rw [StatusData.MarshalJSON]
    simp only [hm, if_true]
    exact ih w

/-- C11: the round trip decode(encode(x)) of a Data or a StatusData, valid or
not, yields no record on this code: the encoding half does not return, however
many nested calls are allowed, so there is nothing to decode. -/
theorem C11_roundTrip_never_returns :
    (∀ (fold : String → String) (fuel : Nat) (x : Data), Data.roundTrip fold fuel x = none)
      ∧ (∀ (fold : String → String) (fuel : Nat) (x : StatusData),
          StatusData.roundTrip fold fuel x = none) := by
  constructor
  · intro fold fuel x
    unfold Data.roundTrip
    rw [Data.MarshalJSON_out_of_fuel fuel x]
  · intro fold fuel x
    unfold StatusData.roundTrip
    rw [StatusData.MarshalJSON_status_out_of_fuel fuel x]

/-- What fetchJSON returns on a response with status code 200, in terms of the
outcome of the decoder. -/
theorem fetchJSON_ok {T : Type} (zero : T)
    (unmarshal : T → Except String JSON → T × Option GoError)
    (status : String) (body : Except String JSON) :
    fetchJSON zero unmarshal (.response 200 status body) =
      match (unmarshal zero body).2 with
      | some err => (none, some (.errorString ("failed to decode webring data: " ++ err.Error)))
      | none => (some (unmarshal zero body).1, none) := by
  generalize hr : unmarshal zero body = r
  rcases r with ⟨d, _ | err⟩
  · simp [fetchJSON, hr]
  · simp [fetchJSON, hr]

/-- What fetchJSON returns on a response with another status code. -/
theorem fetchJSON_not_ok {T : Type} (zero : T)
    (unmarshal : T → Except String JSON → T × Option GoError)
    (code : Int) (status : String) (body : Except String JSON) (hc : code ≠ 200) :
    fetchJSON zero unmarshal (.response code status body) =
      (none, some (.errorString ("failed to fetch webring data: " ++ status))) := by
  simp [fetchJSON, hc]

/-- C12: for every response whose status code is not exactly 200 (other 2xx
codes included), FetchData and FetchStatus fail with "failed to fetch webring
data: " followed by the status line, whatever the body and whatever the
decoder would do with it; a record is returned only when the status code is
200, and at 200 the outcome is the one of decoding the body. -/
theorem C12_fetch_non200_fails (fold : String → String) (http : String → HTTPOutcome)
    (url : String) (code : Int) (status : String) (body : Except String JSON)
    (hresp : http url = .response code status body) :
    (code ≠ 200 →
        FetchData fold http url
            = (none, some (.errorString ("failed to fetch webring data: " ++ status)))
          ∧ FetchStatus fold http url
            = (none, some (.errorString ("failed to fetch webring data: " ++ status))))
      ∧ (code ≠ 200 →
          ∀ (T : Type) (zero : T) (u1 u2 : T → Except String JSON → T × Option GoError),
            fetchJSON zero u1 (http url) = fetchJSON zero u2 (http url))
      ∧ ((FetchData fold http url).1 ≠ none → code = 200)
      ∧ ((FetchStatus fold http url).1 ≠ none → code = 200)
      ∧ (code = 200 →
          ((FetchData fold http url).1 ≠ none
              ↔ (Data.UnmarshalJSON fold Data.zero body).2 = none)
            ∧ ((FetchStatus fold http url).1 ≠ none
              ↔ (StatusData.UnmarshalJSON fold StatusData.zero body).2 = none)) := by
  refine ⟨?_, ?_, ?_, ?_, ?_⟩
  · intro hc
    unfold FetchData FetchStatus fetchJSON
    rw [hresp]
    simp only [hc, ne_eq, not_false_eq_true, if_true, and_self]
  · intro hc T zero u1 u2
    unfold fetchJSON
    rw [hresp]
    simp only [hc, ne_eq, not_false_eq_true, if_true]
  · intro h
    by_contra hc
    apply h
    unfold FetchData fetchJSON
    rw [hresp]
    simp only [hc, ne_eq, not_false_eq_true, if_true]
  · intro h
    by_contra hc
    apply h
    unfold FetchStatus fetchJSON
    rw [hresp]
    simp only [hc, ne_eq, not_false_eq_true, if_true]
  · intro hc
    subst hc
    constructor
    · unfold FetchData
      rw [hresp, fetchJSON_ok]
      rcases (Data.UnmarshalJSON fold Data.zero body).2 with _ | err <;> simp
    · unfold FetchStatus
      rw [hresp, fetchJSON_ok]
      rcases (StatusData.UnmarshalJSON fold StatusData.zero body).2 with _ | err <;> simp

/-- C12 on a 204 response that carries a well-formed version 1 document: the
fetch fails with the status line and no record. -/
theorem C12_fetch_non200_fails_witness :
    FetchData id
        (httpConst (.response 204 "204 No Content"
          (.ok (.obj [("version", .int 1), ("ring", .arr [])]))))
        "https://x.test/webring.json"
      = (none, some (.errorString ("failed to fetch webring data: " ++ "204 No Content"))) :=
  ((C12_fetch_non200_fails id
      (httpConst (.response 204 "204 No Content"
        (.ok (.obj [("version", .int 1), ("ring", .arr [])]))))
      "https://x.test/webring.json" 204 "204 No Content"
      (.ok (.obj [("version", .int 1), ("ring", .arr [])])) rfl).1 (by decide)).1

/-- C13: on every path fetchJSON returns either a record and no error, or no
record and an error, never a record together with an error; when the body
fails to decode or fails the version gate the caller receives no record and
the error "failed to decode webring data: " followed by the cause; any record
returned has Version == 1. -/
theorem C13_fetch_record_xor_error (fold : String → String) (outcome : HTTPOutcome) :
    (∀ (T : Type) (zero : T) (unmarshal : T → Except String JSON → T × Option GoError),
        ((fetchJSON zero unmarshal outcome).1 ≠ none
            ∧ (fetchJSON zero unmarshal outcome).2 = none)
          ∨ ((fetchJSON zero unmarshal outcome).1 = none
            ∧ (fetchJSON zero unmarshal outcome).2 ≠ none))
      ∧ (∀ (status : String) (body : Except String JSON) (cause : GoError),
          outcome = .response 200 status body →
          ((Data.UnmarshalJSON fold Data.zero body).2 = some cause →
            fetchJSON Data.zero (Data.UnmarshalJSON fold) outcome
              = (none, some (.errorString ("failed to decode webring data: " ++ cause.Error))))
          ∧ ((StatusData.UnmarshalJSON fold StatusData.zero body).2 = some cause →
            fetchJSON StatusData.zero (StatusData.UnmarshalJSON fold) outcome
              = (none, some (.errorString ("failed to decode webring data: " ++ cause.Error)))))
      ∧ (∀ d : Data,
          (fetchJSON Data.zero (Data.UnmarshalJSON fold) outcome).1 = some d → d.Version = 1)
      ∧ (∀ d : StatusData,
          (fetchJSON StatusData.zero (StatusData.UnmarshalJSON fold) outcome).1 = some d →
          d.Version = 1) := by
  refine ⟨?_, ?_, ?_, ?_⟩
  · intro T zero unmarshal
    cases outcome with
    | requestError err => right; simp [fetchJSON]
    | transportError err => right; simp [fetchJSON]
    | response code status body =>
      by_cases hc : code = 200
      · subst hc
        rw [fetchJSON_ok]
        rcases (unmarshal zero body).2 with _ | err <;> simp
      · right
        rw [fetchJSON_not_ok zero unmarshal code status body hc]
        simp
  · intro status body cause ho
    subst ho
    constructor
    · intro h
      rw [fetchJSON_ok, h]
    · intro h
      rw [fetchJSON_ok, h]
  · intro d h
    cases outcome with
    | requestError err => simp [fetchJSON] at h
    | transportError err => simp [fetchJSON] at h
    | response code status body =>
      by_cases hc : code = 200
      · subst hc
        rw [fetchJSON_ok, Data.UnmarshalJSON_gate] at h
        generalize jsonUnmarshalRawData fold Data.zero body = r at h
        rcases r with ⟨w1, _ | e1⟩
        · by_cases hv : w1.Version = 1
          · simp [hv] at h
            rw [← h]; exact hv
          · simp [hv] at h
        · simp at h
      · rw [fetchJSON_not_ok _ _ code status body hc] at h
        simp at h
  · intro d h
    cases outcome with
    | requestError err => simp [fetchJSON] at h
    | transportError err => simp [fetchJSON] at h
    | response code status body =>
      by_cases hc : code = 200
      · subst hc
        rw [fetchJSON_ok, StatusData.UnmarshalJSON_status_gate] at h
        generalize jsonUnmarshalRawStatusData fold StatusData.zero body = r at h
        rcases r with ⟨w1, _ | e1⟩
        · by_cases hv : w1.Version = 1
          · simp [hv] at h
            rw [← h]; exact hv
          · simp [hv] at h
        · simp at h
      · rw [fetchJSON_not_ok _ _ code status body hc] at h
        simp at h

/-- C13 on a 200 response whose document has version 2: no record, and the
decode error wraps the cause. -/
theorem C13_fetch_record_xor_error_witness :
    fetchJSON Data.zero (Data.UnmarshalJSON id)
        (.response 200 "200 OK" (.ok (.obj [("version", .int 2), ("ring", .arr [])])))
      = (none, some (.errorString ("failed to decode webring data: "
          ++ (GoError.errorString "only version 1 is supported").Error))) :=
  ((C13_fetch_record_xor_error id
      (.response 200 "200 OK" (.ok (.obj [("version", .int 2), ("ring", .arr [])])))).2.1
    "200 OK" (.ok (.obj [("version", .int 2), ("ring", .arr [])]))
    (GoError.errorString "only version 1 is supported") rfl).1 (by decide)

/-! ## Further claims about the ring algebra -/

/-- A member of a ring has both its neighbours, as SurroundingLinks returns
them, in the ring. -/
theorem Ring.SurroundingLinks_mem (r : Ring) (q : Link) (hq : q ∈ r) :
    ∃ prev next, r.SurroundingLinks q = some (prev, next) ∧ prev ∈ r ∧ next ∈ r := by
  obtain ⟨j, hj, hmin⟩ := exists_least_position q r hq
  have hlt : j < r.length := by
    by_contra hge
    rw [List.getElem?_eq_none (by omega)] at hj
    exact Option.noConfusion hj
  have e : r.SurroundingLinks q = r.SurroundingIndex (j : Int) := by
    unfold Ring.SurroundingLinks
    rw [Ring.SurroundingLinks.loop_found r q r 0 j hj hmin]
    simp
  rw [e]
  exact ⟨_, _, Ring.SurroundingIndex_nat r j hlt, List.get_mem _ _ _, List.get_mem _ _ _⟩

theorem Ring.ExcludeAnomalies_eq_filter (r : Ring) (anomalies : Anomalies) :
    r.ExcludeAnomalies anomalies = List.filter (fun link => !(anomalies.has link.Link)) r := by
  unfold Ring.ExcludeAnomalies
  rw [Ring.Filter_eq_filter]

theorem Ring.mem_ExcludeAnomalies (r : Ring) (anomalies : Anomalies) (l : Link) :
    l ∈ r.ExcludeAnomalies anomalies ↔ l ∈ r ∧ l.Link ∉ anomalies.map Prod.fst := by
  rw [Ring.ExcludeAnomalies_eq_filter, List.mem_filter]
  constructor
  · rintro ⟨hl, hk⟩
    refine ⟨hl, fun hin => ?_⟩
    rw [(Anomalies.has_iff anomalies l.Link).mpr hin] at hk
    simp at hk
  · rintro ⟨hl, hk⟩
    refine ⟨hl, ?_⟩
    cases hb : anomalies.has l.Link with
    | false => rfl
    | true => exact absurd ((Anomalies.has_iff anomalies l.Link).mp hb) hk

/-- C14: on a ring of length 1, SurroundingIndex(0) is (R[0], R[0]); on a ring
of length 2, SurroundingIndex(0) is (R[1], R[1]) and SurroundingIndex(1) is
(R[0], R[0]); so on a ring of length 1 or 2 prev == next at every valid index. -/
theorem C14_small_rings :
    (∀ a : Link, Ring.SurroundingIndex [a] 0 = some (a, a))
      ∧ (∀ a b : Link, Ring.SurroundingIndex [a, b] 0 = some (b, b)
          ∧ Ring.SurroundingIndex [a, b] 1 = some (a, a))
      ∧ (∀ (r : Ring) (i : Int), (r.length = 1 ∨ r.length = 2) → 0 ≤ i → i < (r.length : Int) →
          ∃ p : Link, r.SurroundingIndex i = some (p, p)) := by
  have h1 : ∀ a : Link, Ring.SurroundingIndex [a] 0 = some (a, a) := by
    intro a
    exact Ring.SurroundingIndex_nat [a] 0 (by simp)
  have h2 : ∀ a b : Link, Ring.SurroundingIndex [a, b] 0 = some (b, b)
      ∧ Ring.SurroundingIndex [a, b] 1 = some (a, a) := by
    intro a b
    exact ⟨Ring.SurroundingIndex_nat [a, b] 0 (by simp),
      Ring.SurroundingIndex_nat [a, b] 1 (by simp)⟩
  refine ⟨h1, h2, ?_⟩
  intro r i hlen h0 hn
  rcases hlen with hlen | hlen
  · match r, hlen with
    | [a], _ =>
      have hi : i = 0 := by simp at hn; omega
      subst hi
      exact ⟨a, h1 a⟩
  · match r, hlen with
    | [a, b], _ =>
      have hi : i = 0 ∨ i = 1 := by simp at hn; omega
      rcases hi with hi | hi
      · subst hi; exact ⟨b, (h2 a b).1⟩
      · subst hi; exact ⟨a, (h2 a b).2⟩

/-- C14 on the one- and two-element rings of the test suite. -/
theorem C14_small_rings_witness :
    (∃ p : Link, Ring.SurroundingIndex [⟨"a", "https://a"⟩] 0 = some (p, p))
      ∧ (∃ p : Link,
          Ring.SurroundingIndex [⟨"a", "https://a"⟩, ⟨"b", "https://b"⟩] 1 = some (p, p)) :=
  ⟨C14_small_rings.2.2 [⟨"a", "https://a"⟩] 0 (by decide) (by decide) (by decide),
   C14_small_rings.2.2 [⟨"a", "https://a"⟩, ⟨"b", "https://b"⟩] 1
    (by decide) (by decide) (by decide)⟩

/-- C15: anomaly matching depends on the address only: renaming every link of
the ring with g and then applying ExcludeAnomalies(A) gives the same result as
applying ExcludeAnomalies(A) and then renaming; in particular a link whose
name, but not address, is a key of A is kept. -/
theorem C15_anomaly_match_by_address (r : Ring) (anomalies : Anomalies) :
    (∀ g : String → String,
        Ring.ExcludeAnomalies (r.map (Link.rename g)) anomalies
          = (r.ExcludeAnomalies anomalies).map (Link.rename g))
      ∧ (∀ l : Link, l ∈ r → l.Name ∈ anomalies.map Prod.fst →
          l.Link ∉ anomalies.map Prod.fst → l ∈ r.ExcludeAnomalies anomalies) := by
  constructor
  · intro g
    rw [Ring.ExcludeAnomalies_eq_filter, Ring.ExcludeAnomalies_eq_filter, List.filter_map]
    rfl
  · intro l hl _ hk
    exact (Ring.mem_ExcludeAnomalies r anomalies l).mpr ⟨hl, hk⟩

/-- C15 on a ring whose first link is named like the broken address: it is
kept, and the link at that address is dropped. -/
theorem C15_anomaly_match_by_address_witness :
    (⟨"b.example", "a.example"⟩ : Link)
      ∈ Ring.ExcludeAnomalies [⟨"b.example", "a.example"⟩, ⟨"b", "b.example"⟩]
          [("b.example", ⟨true, false⟩)] :=
  (C15_anomaly_match_by_address [⟨"b.example", "a.example"⟩, ⟨"b", "b.example"⟩]
      [("b.example", ⟨true, false⟩)]).2
    ⟨"b.example", "a.example"⟩ (by decide) (by decide) (by decide)

/-- SurroundingIndex on a valid index, with the two neighbours named by their
positions. -/
theorem Ring.SurroundingIndex_positions (r : Ring) (k : Nat) (hk : k < r.length) :
    ∃ prev next, r.SurroundingIndex (k : Int) = some (prev, next)
      ∧ r[if 0 < k then k - 1 else r.length - 1]? = some prev
      ∧ r[if k + 1 < r.length then k + 1 else 0]? = some next := by
  refine ⟨_, _, Ring.SurroundingIndex_nat r k hk, ?_, ?_⟩
  · rw [List.getElem?_eq_getElem (by split <;> omega)]
    rfl
  · rw [List.getElem?_eq_getElem (by split <;> omega)]
    rfl

/-- C17: predecessor and successor are mutually inverse around the circle: on
a non-empty ring of length n and a valid index i, the prev component of
SurroundingIndex((i+1) mod n) is R[i] and the next component of
SurroundingIndex((i+n-1) mod n) is R[i]. -/
theorem C17_prev_next_inverse (r : Ring) (i : Int) (h0 : 0 ≤ i) (hn : i < (r.length : Int)) :
    (∃ prev next, r.SurroundingIndex ((i + 1) % (r.length : Int)) = some (prev, next)
        ∧ r[i.toNat]? = some prev)
      ∧ (∃ prev next,
          r.SurroundingIndex ((i + (r.length : Int) - 1) % (r.length : Int)) = some (prev, next)
        ∧ r[i.toNat]? = some next) := by
  obtain ⟨k, rfl⟩ := Int.eq_ofNat_of_zero_le h0
  have hk : k < r.length := by omega
  have hto : ((k : Int)).toNat = k := by omega
  rw [hto]
  constructor
  · by_cases hlt : k + 1 < r.length
    · have e : ((k : Int) + 1) % (r.length : Int) = ((k + 1 : Nat) : Int) := by
        rw [Int.emod_eq_of_lt (by omega) (by omega)]
        omega
      obtain ⟨prev, next, hs, hp, _⟩ := Ring.SurroundingIndex_positions r (k + 1) hlt
      rw [e]
      refine ⟨prev, next, hs, ?_⟩
      rw [if_pos (by omega)] at hp
      simpa using hp
    · have e : ((k : Int) + 1) % (r.length : Int) = ((0 : Nat) : Int) := by
        have : ((k : Int) + 1) = (r.length : Int) := by omega
        rw [this, Int.emod_self]
        rfl
      obtain ⟨prev, next, hs, hp, _⟩ := Ring.SurroundingIndex_positions r 0 (by omega)
      rw [e]
      refine ⟨prev, next, hs, ?_⟩
      rw [if_neg (by omega)] at hp
      have hidx : r.length - 1 = k := by omega
      rwa [hidx] at hp
  · by_cases hpos : 0 < k
    · have e : ((k : Int) + (r.length : Int) - 1) % (r.length : Int) = ((k - 1 : Nat) : Int) := by
        have : ((k : Int) + (r.length : Int) - 1) = ((k - 1 : Nat) : Int) + (r.length : Int) := by
          omega
        rw [this, Int.add_emod_self, Int.emod_eq_of_lt (by omega) (by omega)]
      obtain ⟨prev, next, hs, _, hq⟩ := Ring.SurroundingIndex_positions r (k - 1) (by omega)
      rw [e]
      refine ⟨prev, next, hs, ?_⟩
      rw [if_pos (by omega)] at hq
      have hidx : k - 1 + 1 = k := by omega
      rwa [hidx] at hq
    · have hz : k = 0 := by omega
      subst hz
      have e : (((0 : Nat) : Int) + (r.length : Int) - 1) % (r.length : Int)
          = ((r.length - 1 : Nat) : Int) := by
        rw [Int.emod_eq_of_lt (by omega) (by omega)]
        omega
      obtain ⟨prev, next, hs, _, hq⟩ :=
        Ring.SurroundingIndex_positions r (r.length - 1) (by omega)
      rw [e]
      refine ⟨prev, next, hs, ?_⟩
      rw [if_neg (by omega)] at hq
      exact hq

/-- C17 on the three-element test ring at its last index, where both lookups
wrap around. -/
theorem C17_prev_next_inverse_witness :
    (∃ prev next,
        testRing3.SurroundingIndex (((2 : Int) + 1) % (testRing3.length : Int)) = some (prev, next)
        ∧ testRing3[(2 : Int).toNat]? = some prev)
      ∧ (∃ prev next,
          testRing3.SurroundingIndex
              (((2 : Int) + (testRing3.length : Int) - 1) % (testRing3.length : Int))
            = some (prev, next)
        ∧ testRing3[(2 : Int).toNat]? = some next) :=
  C17_prev_next_inverse testRing3 2 (by decide) (by decide)

theorem Anomalies.has_append (a b : Anomalies) (key : String) :
    Anomalies.has (a ++ b) key = (a.has key || b.has key) := by
  rw [Bool.eq_iff_iff, Bool.or_eq_true, Anomalies.has_iff, Anomalies.has_iff, Anomalies.has_iff,
    List.map_append, List.mem_append]

theorem Ring.ExcludeAnomalies_twice (r : Ring) (a b ab : Anomalies)
    (h : ∀ key : String, ab.has key = (a.has key || b.has key)) :
    Ring.ExcludeAnomalies (r.ExcludeAnomalies a) b = r.ExcludeAnomalies ab := by
  rw [Ring.ExcludeAnomalies_eq_filter, Ring.ExcludeAnomalies_eq_filter,
    Ring.ExcludeAnomalies_eq_filter, List.filter_filter]
  apply List.filter_congr
  intro l _
  rw [h l.Link]
  cases a.has l.Link <;> cases b.has l.Link <;> rfl

/-- C18: excluding A and then B equals excluding A ∪ B, for every map that
holds the keys of both (the concatenation A ++ B is one); consequently
ExcludeAnomalies is idempotent and the order of A and B does not matter. -/
theorem C18_excludeAnomalies_compose (r : Ring) (a b : Anomalies) :
    (∀ ab : Anomalies, (∀ key : String, ab.has key = (a.has key || b.has key)) →
        Ring.ExcludeAnomalies (r.ExcludeAnomalies a) b = r.ExcludeAnomalies ab)
      ∧ Ring.ExcludeAnomalies (r.ExcludeAnomalies a) b = r.ExcludeAnomalies (a ++ b)
      ∧ Ring.ExcludeAnomalies (r.ExcludeAnomalies a) a = r.ExcludeAnomalies a
      ∧ Ring.ExcludeAnomalies (r.ExcludeAnomalies a) b
          = Ring.ExcludeAnomalies (r.ExcludeAnomalies b) a := by
  refine ⟨fun ab h => Ring.ExcludeAnomalies_twice r a b ab h,
    Ring.ExcludeAnomalies_twice r a b (a ++ b) (Anomalies.has_append a b), ?_, ?_⟩
  · exact Ring.ExcludeAnomalies_twice r a a a (fun key => by cases a.has key <;> rfl)
  · rw [Ring.ExcludeAnomalies_twice r a b (a ++ b) (Anomalies.has_append a b),
      Ring.ExcludeAnomalies_twice r b a (a ++ b)
        (fun key => by rw [Anomalies.has_append, Bool.or_comm])]

/-- C18 on the example ring: excluding b.example and then c.example equals
excluding the map that holds both keys. -/
theorem C18_excludeAnomalies_compose_witness :
    Ring.ExcludeAnomalies (exampleRing.ExcludeAnomalies [("b.example", ⟨true, false⟩)])
        [("c.example", ⟨false, true⟩)]
      = exampleRing.ExcludeAnomalies
          [("c.example", ⟨false, true⟩), ("b.example", ⟨true, false⟩)] :=
  (C18_excludeAnomalies_compose exampleRing [("b.example", ⟨true, false⟩)]
      [("c.example", ⟨false, true⟩)]).1
    [("c.example", ⟨false, true⟩), ("b.example", ⟨true, false⟩)]
    (fun key => by
      simp only [Anomalies.has, List.lookup]
      by_cases h1 : key = "c.example"
      · subst h1; rfl
      · by_cases h2 : key = "b.example"
        · subst h2; rfl
        · have e1 : (key == "c.example") = false := by simpa using h1
          have e2 : (key == "b.example") = false := by simpa using h2
          simp [e1, e2])

/-- C19: neighbour lookup on a filtered ring never yields a broken member: for
every link q that occurs in R' = R.ExcludeAnomalies(A), both links returned by
R'.SurroundingLinks(q) are elements of R whose address is not a key of A. -/
theorem C19_filtered_neighbours_working (r : Ring) (anomalies : Anomalies) (q : Link)
    (hq : q ∈ r.ExcludeAnomalies anomalies) :
    ∃ prev next, Ring.SurroundingLinks (r.ExcludeAnomalies anomalies) q = some (prev, next)
      ∧ prev ∈ r ∧ prev.Link ∉ anomalies.map Prod.fst
      ∧ next ∈ r ∧ next.Link ∉ anomalies.map Prod.fst := by
  obtain ⟨prev, next, hs, hp, hnx⟩ := Ring.SurroundingLinks_mem (r.ExcludeAnomalies anomalies) q hq
  have hp2 := (Ring.mem_ExcludeAnomalies r anomalies prev).mp hp
  have hn2 := (Ring.mem_ExcludeAnomalies r anomalies next).mp hnx
  exact ⟨prev, next, hs, hp2.1, hp2.2, hn2.1, hn2.2⟩

/-- C19 on the example ring with b.example broken: the neighbours of a in the
filtered ring are working members. -/
theorem C19_filtered_neighbours_working_witness :
    ∃ prev next,
      Ring.SurroundingLinks (exampleRing.ExcludeAnomalies [("b.example", ⟨true, false⟩)])
          ⟨"a", "a.example"⟩ = some (prev, next)
      ∧ prev ∈ exampleRing
      ∧ prev.Link ∉ List.map Prod.fst ([("b.example", ⟨true, false⟩)] : Anomalies)
      ∧ next ∈ exampleRing
      ∧ next.Link ∉ List.map Prod.fst ([("b.example", ⟨true, false⟩)] : Anomalies) :=
  C19_filtered_neighbours_working exampleRing [("b.example", ⟨true, false⟩)]
    ⟨"a", "a.example"⟩ (by decide)

/-! ## Further claims about the status URL -/

/-- An occurrence of ".json" cannot start inside `x` and run over a '.' that
follows `x`: the only '.' of the pattern is its first character. -/
theorem dotJson_no_overlap (x rest : List Char) (hx : x ≠ [])
    (h : ['.', 'j', 's', 'o', 'n'] <+: x ++ '.' :: rest) :
    ['.', 'j', 's', 'o', 'n'] <+: x := by
  rcases x with _ | ⟨a, _ | ⟨b, _ | ⟨c, _ | ⟨d, _ | ⟨e, t⟩⟩⟩⟩⟩
  · exact absurd rfl hx
  · simp [List.cons_prefix_cons] at h
  · simp [List.cons_prefix_cons] at h
  · simp [List.cons_prefix_cons] at h
  · simp [List.cons_prefix_cons] at h
  · simp only [List.cons_append, List.cons_prefix_cons] at h
    obtain ⟨h1, h2, h3, h4, h5, _⟩ := h
    subst h1 h2 h3 h4 h5
    exact ⟨t, rfl⟩

/-- Without ".json" in `pre`, no occurrence of it in `pre` followed by a '.'
starts inside `pre`. -/
theorem dotJson_not_early (pre rest : List Char)
    (hpre : ¬ (['.', 'j', 's', 'o', 'n'] <:+: pre)) :
    ∀ k, k < pre.length → ¬ (['.', 'j', 's', 'o', 'n'] <+: (pre ++ '.' :: rest).drop k) := by
  intro k hk h
  rw [List.drop_append_of_le_length (by omega)] at h
  have hne : pre.drop k ≠ [] := by
    intro e
    have := congrArg List.length e
    simp at this
    omega
  have hp := dotJson_no_overlap (pre.drop k) rest hne h
  exact hpre (hp.isInfix.trans (List.drop_suffix k pre).isInfix)

/-- In `pre` followed by ".status.json", with no ".json" in `pre`, no
occurrence of ".json" starts before position len(pre) + 7. -/
theorem dotJson_first_in_status (pre post : List Char)
    (hpre : ¬ (['.', 'j', 's', 'o', 'n'] <:+: pre)) :
    ∀ k, k < pre.length + 7 →
      ¬ (['.', 'j', 's', 'o', 'n'] <+:
          (pre ++ ['.', 's', 't', 'a', 't', 'u', 's'] ++ ['.', 'j', 's', 'o', 'n'] ++ post).drop k) := by
  intro k hk
  have hshape : pre ++ ['.', 's', 't', 'a', 't', 'u', 's'] ++ ['.', 'j', 's', 'o', 'n'] ++ post
      = pre ++ '.' :: ('s' :: 't' :: 'a' :: 't' :: 'u' :: 's' :: '.' :: 'j' :: 's' :: 'o' :: 'n'
          :: post) := by
    simp
  rw [hshape]
  by_cases hlt : k < pre.length
  · exact dotJson_not_early pre _ hpre k hlt
  · obtain ⟨j, rfl⟩ : ∃ j, k = pre.length + j := ⟨k - pre.length, by omega⟩
    have hj : j < 7 := by omega
    rw [List.drop_append]
    interval_cases j <;> simp [List.cons_prefix_cons]

/-- C20: GuessStatusURL is not idempotent on URLs that contain ".json": for
pre without ".json" and any post, applying it twice to pre ++ ".json" ++ post
gives pre ++ ".status.status.json" ++ post, because the first occurrence of
".json" in pre ++ ".status.json" ++ post starts exactly at position
len(pre) + 7; so an already-derived status URL derives a different URL, and
FetchStatusForWebring on a status URL fetches that different URL. -/
theorem C20_guessStatusURL_not_idempotent (pre post : String)
    (hpre : ¬ (".json".data <:+: pre.data)) :
    GuessStatusURL (pre ++ ".json" ++ post) = pre ++ ".status.json" ++ post
      ∧ GuessStatusURL (GuessStatusURL (pre ++ ".json" ++ post))
          = pre ++ ".status.status.json" ++ post
      ∧ ".json".data <+: (pre ++ ".status.json" ++ post).data.drop (pre.length + 7)
      ∧ (∀ k, k < pre.length + 7 →
          ¬ (".json".data <+: (pre ++ ".status.json" ++ post).data.drop k))
      ∧ GuessStatusURL (GuessStatusURL (pre ++ ".json" ++ post))
          ≠ GuessStatusURL (pre ++ ".json" ++ post)
      ∧ (∀ (fold : String → String) (http : String → HTTPOutcome),
          FetchStatusForWebring fold http (GuessStatusURL (pre ++ ".json" ++ post))
            = FetchStatus fold http (pre ++ ".status.status.json" ++ post)) := by
  have hp : ¬ (['.', 'j', 's', 'o', 'n'] <:+: pre.data) := hpre
  have d1 : (pre ++ ".json" ++ post).data = pre.data ++ ['.', 'j', 's', 'o', 'n'] ++ post.data := by
    simp [String.data_append]
  have d2 : (pre ++ ".status.json" ++ post).data
      = pre.data ++ ['.', 's', 't', 'a', 't', 'u', 's'] ++ ['.', 'j', 's', 'o', 'n'] ++ post.data := by
    simp [String.data_append]
  have hfirst : ∀ k, k < pre.data.length + 7 →
      ¬ (['.', 'j', 's', 'o', 'n'] <+: (pre ++ ".status.json" ++ post).data.drop k) := by
    intro k hk
    rw [d2]
    exact dotJson_first_in_status pre.data post.data hp k hk
  have e1 : GuessStatusURL (pre ++ ".json" ++ post) = pre ++ ".status.json" ++ post := by
    unfold GuessStatusURL
    rw [d1]
    have := stringsReplaceFirst_at ['.', 'j', 's', 'o', 'n']
      ['.', 's', 't', 'a', 't', 'u', 's', '.', 'j', 's', 'o', 'n'] (by simp) post.data pre.data
      (by
        intro k hk
        have hs : pre.data ++ ['.', 'j', 's', 'o', 'n'] ++ post.data
            = pre.data ++ '.' :: ('j' :: 's' :: 'o' :: 'n' :: post.data) := by simp
        rw [hs]
        exact dotJson_not_early pre.data _ hp k hk)
    show String.mk (stringsReplaceFirst ['.', 'j', 's', 'o', 'n']
      ['.', 's', 't', 'a', 't', 'u', 's', '.', 'j', 's', 'o', 'n']
      (pre.data ++ ['.', 'j', 's', 'o', 'n'] ++ post.data)) = _
    rw [this]
    apply String.ext
    simp [String.data_append]
  have e2 : GuessStatusURL (pre ++ ".status.json" ++ post)
      = pre ++ ".status.status.json" ++ post := by
    unfold GuessStatusURL
    rw [d2]
    have := stringsReplaceFirst_at ['.', 'j', 's', 'o', 'n']
      ['.', 's', 't', 'a', 't', 'u', 's', '.', 'j', 's', 'o', 'n'] (by simp) post.data
      (pre.data ++ ['.', 's', 't', 'a', 't', 'u', 's'])
      (by
        intro k hk
        have hk2 : k < pre.data.length + 7 := by simpa using hk
        exact dotJson_first_in_status pre.data post.data hp k hk2)
    show String.mk (stringsReplaceFirst ['.', 'j', 's', 'o', 'n']
      ['.', 's', 't', 'a', 't', 'u', 's', '.', 'j', 's', 'o', 'n']
      (pre.data ++ ['.', 's', 't', 'a', 't', 'u', 's'] ++ ['.', 'j', 's', 'o', 'n'] ++ post.data))
      = _
    rw [this]
    apply String.ext
    simp [String.data_append]
  refine ⟨e1, by rw [e1, e2], ?_, hfirst, ?_, ?_⟩
  · rw [d2]
    have hd : List.drop (pre.data.length + 7)
        (pre.data ++ ['.', 's', 't', 'a', 't', 'u', 's'] ++ ['.', 'j', 's', 'o', 'n'] ++ post.data)
        = ['.', 'j', 's', 'o', 'n'] ++ post.data := by
      have hl : (pre.data ++ ['.', 's', 't', 'a', 't', 'u', 's']).length = pre.data.length + 7 := by
        simp
      rw [← hl, List.append_assoc (pre.data ++ ['.', 's', 't', 'a', 't', 'u', 's']),
        List.drop_left]
    show ['.', 'j', 's', 'o', 'n'] <+: List.drop (pre.data.length + 7) _
    rw [hd]
    exact List.prefix_append _ _
  · rw [e1, e2]
    intro h
    have := congrArg String.length h
    simp [String.length_append] at this
    have l1 : ".status.status.json".length = 19 := by decide
    have l2 : ".status.json".length = 12 := by decide
    omega
  · intro fold http
    unfold FetchStatusForWebring FetchStatus
    rw [e1, e2]

/-- C20 on the status URL of the specification's first scenario: deriving
again from "https://x.test/webring.status.json" gives another URL. -/
theorem C20_guessStatusURL_not_idempotent_witness :
    GuessStatusURL (GuessStatusURL ("https://x.test/webring" ++ ".json" ++ ""))
        = "https://x.test/webring" ++ ".status.status.json" ++ ""
      ∧ GuessStatusURL (GuessStatusURL ("https://x.test/webring" ++ ".json" ++ ""))
        ≠ GuessStatusURL ("https://x.test/webring" ++ ".json" ++ "") :=
  ⟨(C20_guessStatusURL_not_idempotent "https://x.test/webring" "" (by decide)).2.1,
   (C20_guessStatusURL_not_idempotent "https://x.test/webring" "" (by decide)).2.2.2.2.1⟩

/-! ## The receiver after a failed decode -/

/-- C16, as stated, fails: decoding the version 2 document
{"version": 2, "name": "rejected"} into an existing version 1 record named
"old" is rejected by the version gate, and the receiver then holds the version
and the name of the rejected document, not its value before the call; the same
happens to the anomalies of a StatusData. -/
theorem C16_receiver_not_restored_counterexample :
    (Data.UnmarshalJSON id { Version := 1, Name := "old", Root := "", Ring := [] }
        (.ok (.obj [("version", .int 2), ("name", .str "rejected")]))).2
        = some (GoError.errorString "only version 1 is supported")
      ∧ (Data.UnmarshalJSON id { Version := 1, Name := "old", Root := "", Ring := [] }
        (.ok (.obj [("version", .int 2), ("name", .str "rejected")]))).1
        = { Version := 2, Name := "rejected", Root := "", Ring := [] }
      ∧ (Data.UnmarshalJSON id { Version := 1, Name := "old", Root := "", Ring := [] }
        (.ok (.obj [("version", .int 2), ("name", .str "rejected")]))).1
        ≠ { Version := 1, Name := "old", Root := "", Ring := [] }
      ∧ (StatusData.UnmarshalJSON id { Version := 1, Anomalies := [] }
        (.ok (.obj [("anomalies", .obj [("b.example", .obj [("dead", .bool true)])]),
          ("version", .int 3)]))).2
        = some (GoError.errorString "only version 1 is supported")
      ∧ (StatusData.UnmarshalJSON id { Version := 1, Anomalies := [] }
        (.ok (.obj [("anomalies", .obj [("b.example", .obj [("dead", .bool true)])]),
          ("version", .int 3)]))).1
        ≠ { Version := 1, Anomalies := [] } := by
  decide

/-- C16, amended: when decoding into an existing Data or StatusData record
with UnmarshalJSON fails, the receiver is left as the underlying json.Unmarshal
left it, never restored: equal to its value before the call when the input is
not valid JSON, and on a version-gate failure holding the fields of the
rejected document, its version included; only fetchJSON discards the record,
handing the caller none whenever the decoder reports an error. -/
theorem C16_receiver_after_failure (fold : String → String) :
    (∀ (w : Data) (b : Except String JSON),
        (Data.UnmarshalJSON fold w b).1 = (jsonUnmarshalRawData fold w b).1)
      ∧ (∀ (w : Data) (msg : String),
        Data.UnmarshalJSON fold w (.error msg) = (w, some (.json msg)))
      ∧ (∀ (w : Data) (b : Except String JSON),
        (jsonUnmarshalRawData fold w b).2 = none →
        (jsonUnmarshalRawData fold w b).1.Version ≠ 1 →
        Data.UnmarshalJSON fold w b
          = ((jsonUnmarshalRawData fold w b).1,
              some (GoError.errorString "only version 1 is supported")))
      ∧ (∀ (w : StatusData) (b : Except String JSON),
        (StatusData.UnmarshalJSON fold w b).1 = (jsonUnmarshalRawStatusData fold w b).1)
      ∧ (∀ (w : StatusData) (msg : String),
        StatusData.UnmarshalJSON fold w (.error msg) = (w, some (.json msg)))
      ∧ (∀ (w : StatusData) (b : Except String JSON),
        (jsonUnmarshalRawStatusData fold w b).2 = none →
        (jsonUnmarshalRawStatusData fold w b).1.Version ≠ 1 →
        StatusData.UnmarshalJSON fold w b
          = ((jsonUnmarshalRawStatusData fold w b).1,
              some (GoError.errorString "only version 1 is supported")))
      ∧ (∀ (T : Type) (zero : T) (unmarshal : T → Except String JSON → T × Option GoError)
          (status : String) (body : Except String JSON),
        (unmarshal zero body).2 ≠ none →
        (fetchJSON zero unmarshal (.response 200 status body)).1 = none) := by
  refine ⟨?_, ?_, ?_, ?_, ?_, ?_, ?_⟩
  · intro w b
    rw [Data.UnmarshalJSON_gate]
  · intro w msg
    rfl
  · intro w b hok hv
    rw [Data.UnmarshalJSON_gate, hok]
    simp [hv]
  · intro w b
    rw [StatusData.UnmarshalJSON_status_gate]
  · intro w msg
    rfl
  · intro w b hok hv
    rw [StatusData.UnmarshalJSON_status_gate, hok]
    simp [hv]
  · intro T zero unmarshal status body h
    rw [fetchJSON_ok]
    rcases hr : (unmarshal zero body).2 with _ | err
    · exact absurd hr h
    · rfl

/-- C16, amended, on the version 2 document decoded into an existing record:
the receiver is the record json.Unmarshal left, with the rejected name. -/
theorem C16_receiver_after_failure_witness :
    Data.UnmarshalJSON id { Version := 1, Name := "old", Root := "", Ring := [] }
        (.ok (.obj [("version", .int 2), ("name", .str "rejected")]))
      = ((jsonUnmarshalRawData id { Version := 1, Name := "old", Root := "", Ring := [] }
            (.ok (.obj [("version", .int 2), ("name", .str "rejected")]))).1,
          some (GoError.errorString "only version 1 is supported")) :=
  (C16_receiver_after_failure id).2.2.1
    { Version := 1, Name := "old", Root := "", Ring := [] }
    (.ok (.obj [("version", .int 2), ("name", .str "rejected")])) (by decide) (by decide)

end Libwebring
